import Mathlib

/-!
Shallow embedding of the islandresearch canonicalization and forecast code.

Conventions used throughout this development:
* Python floats are modelled as rationals (`ℚ`); the arithmetic performed by the
  embedded code (+, -, *, /, abs, comparisons) is exact on the inputs considered.
* Python `datetime.date` values (and ISO date strings used as period keys) are
  modelled as `Int` day numbers; `(end - start).days` becomes integer subtraction,
  and lexicographic order on ISO strings agrees with the numeric order.
* Python `None` is `Option.none`; a dict field that may be absent or `None` is an
  `Option`.  Python truthiness (empty string, `0.0`, `None`, empty list are falsy)
  is modelled explicitly by the `pyTruthy*` helpers below.
* Python dicts are association lists; dict-comprehension construction where later
  entries overwrite earlier ones is modelled by searching from the end
  (`lineMapLast`), and plain `dict.get` by `List.find?` (keys are unique where the
  source guarantees it).
-/

/-- Python truthiness of an optional string: `None` and `""` are falsy. -/
def pyTruthyStr : Option String → Bool
  | none => false
  | some s => !(s == "")

/-- Python truthiness of an optional float: `None` and `0.0` are falsy. -/
def pyTruthyQ : Option ℚ → Bool
  | none => false
  | some x => !(x == 0)

/-- Python `a or b` on optional floats (`a` kept when truthy). -/
def pyOrQ (a b : Option ℚ) : Option ℚ :=
  if pyTruthyQ a then a else b

/-- Python `a or d` where `d` is a plain float default (e.g. `x or 0`). -/
def pyOrQD (a : Option ℚ) (d : ℚ) : ℚ :=
  match a with
  | some v => if v == 0 then d else v
  | none => d

/-- Python `a or b` on optional strings. -/
def pyOrStr (a b : Option String) : Option String :=
  if pyTruthyStr a then a else b

/-- Lexicographic (code-point) strict order on character lists, matching
Python string comparison. -/
def strLtB : List Char → List Char → Bool
  | [], [] => false
  | [], _ :: _ => true
  | _ :: _, [] => false
  | a :: as, b :: bs => if a < b then true else if b < a then false else strLtB as bs

/-- Python `>` on the two accession strings (both known to be truthy at use site). -/
def pyStrGt (a b : Option String) : Bool :=
  match a, b with
  | some x, some y => strLtB y.data x.data
  | _, _ => false

/-- Python `a or b` on optional dates (a `date` object is never falsy). -/
def pyOrDate (a b : Option Int) : Option Int :=
  if a.isSome then a else b

/-!
### Kernel-reducible string primitives

Lean's position-based `String.toUpper`/`trim`/`splitOn`/`replace` do not reduce
inside the kernel, so the embedding uses these character-list equivalents of
the corresponding Python string methods (ASCII semantics, as in the source
data).
-/

/-- `str.upper()`. -/
def pyUpper (s : String) : String := String.mk (s.data.map Char.toUpper)

/-- `str.lower()`. -/
def pyLower (s : String) : String := String.mk (s.data.map Char.toLower)

/-- Python whitespace for `str.strip()`. -/
def isPyWS (c : Char) : Bool :=
  c == ' ' || c == '\t' || c == '\n' || c == '\r' || c == '\x0b' || c == '\x0c'

/-- `str.strip()`. -/
def pyStrip (s : String) : String :=
  String.mk (((s.data.dropWhile isPyWS).reverse.dropWhile isPyWS).reverse)

/-- `str.startswith(pre)`. -/
def pyStartsWith (s pre : String) : Bool :=
  pre.data.isPrefixOf s.data

/-- `str.replace(" ", "")`: drop every space character. -/
def removeSpaceChars (s : String) : String :=
  String.mk (s.data.filter (fun c => !(c == ' ')))

/-- `str.split(":")` on character lists. -/
def splitOnColon : List Char → List (List Char)
  | [] => [[]]
  | c :: cs =>
      let r := splitOnColon cs
      if c == ':' then [] :: r
      else
        match r with
        | h :: t => (c :: h) :: t
        | [] => [[c]]

/-!
## Canonical schema (mirrored from `workers/tag_map.py`)

`src/workers/canonical.py` imports `allowed_statements` / `allowed_line_items`
from `workers/tag_map.py`, which is not part of the provided sources; the same
allow-list is mirrored verbatim in `src/api/app/summary_utils.py` lines 6-80,
which is what we embed here.
-/

def ALLOWED_STATEMENTS : List String :=
  ["income_statement", "balance_sheet", "cash_flow"]

def incomeStatementItems : List String :=
  ["revenue", "cogs", "gross_profit", "r_and_d", "sga", "operating_expenses",
   "operating_income", "interest_income", "interest_expense", "other_income_expense",
   "pre_tax_income", "income_tax_expense", "net_income", "ebitda", "total_expenses",
   "eps_basic", "eps_diluted", "shares_basic", "shares_diluted", "shares_outstanding"]

def balanceSheetItems : List String :=
  ["cash", "short_term_investments", "long_term_investments", "accounts_receivable",
   "inventory", "prepaid_expenses", "other_assets_current", "assets_current",
   "other_assets_noncurrent", "assets_noncurrent", "assets", "ppe", "goodwill",
   "intangible_assets", "accounts_payable", "accrued_expenses", "deferred_revenue_current",
   "deferred_revenue_noncurrent", "other_liabilities_current", "liabilities_current",
   "other_liabilities_noncurrent", "liabilities_noncurrent", "liabilities",
   "debt_current", "debt_long_term", "equity", "retained_earnings", "treasury_stock",
   "minority_interest", "liabilities_equity"]

def cashFlowItems : List String :=
  ["net_income", "depreciation_amortization", "stock_compensation", "change_working_capital",
   "cfo", "capex", "acquisitions", "cfi", "dividends_paid", "share_repurchases",
   "debt_issued", "debt_repaid", "cff", "fx_on_cash", "change_in_cash",
   "change_in_restricted_cash"]

/-- `ALLOWED_LINE_ITEMS.get(statement, set())`. -/
def allowedLineItems (stmt : String) : List String :=
  if stmt == "income_statement" then incomeStatementItems
  else if stmt == "balance_sheet" then balanceSheetItems
  else if stmt == "cash_flow" then cashFlowItems
  else []

/-!
## `src/workers/canonical.py`
-/

/-- `is_allowed` (canonical.py lines 24-30). -/
def is_allowed (statement line_item : Option String) : Bool :=
  if !(pyTruthyStr statement) || !(pyTruthyStr line_item) then false
  else
    match statement, line_item with
    | some s, some li =>
        if !(ALLOWED_STATEMENTS.contains s) then false
        else (allowedLineItems s).contains li
    | _, _ => false

/-- `_normalize_period_type` (canonical.py lines 33-38). -/
def normalize_period_type (statement period_type : Option String) : String :=
  if statement == some "income_statement" || statement == some "cash_flow" then "duration"
  else if statement == some "balance_sheet" then "instant"
  else (pyOrStr period_type (some "unknown")).getD "unknown"

/-- `_normalize_unit` (canonical.py lines 41-47): strip, uppercase, and collapse
per-share spellings. -/
def normalize_unit (unit : Option String) : String :=
  if !(pyTruthyStr unit) then "USD"
  else
    let cleaned := pyUpper (pyStrip (unit.getD ""))
    if cleaned == "USD/SHARES" || cleaned == "USD/SHARE" || cleaned == "USD PER SHARE" then
      "USDPERSHARE"
    else cleaned

/-- `duration_days` (canonical.py lines 60-66): `(end - start).days`. -/
def duration_days (start «end» : Option Int) : Option Int :=
  match start, «end» with
  | some s, some e => some (e - s)
  | _, _ => none

/-- One raw fact row as fetched from the `facts` table and fed to
`aggregate_canonical_rows`. -/
structure RawRow where
  id : Option Nat
  ticker : Option String
  cik : Option String
  accession : Option String
  period_start : Option Int
  period_end : Option Int
  period_type : Option String
  statement : Option String
  line_item : Option String
  value : Option ℚ
  unit : Option String
deriving Repr, DecidableEq

/-- The grouping key `(ticker, cik, period_end, period_type, statement, line_item, unit)`
(canonical.py line 84). -/
structure AggKey where
  ticker : String
  cik : Option String
  period_end : Int
  period_type : String
  statement : String
  line_item : String
  unit : String
deriving Repr, DecidableEq

/-- One aggregated (canonical) row.  `period_start` is optional because the
accession-replacement branch of the aggregator builds its row without that
field (canonical.py lines 111-122). -/
structure AggRow where
  ticker : String
  cik : Option String
  accession : Option String
  period_start : Option Int
  period_end : Int
  period_type : String
  statement : String
  line_item : String
  value : ℚ
  unit : String
  source_fact_id : Option Nat
deriving Repr, DecidableEq

/-- The full grouping key carried by an aggregated row. -/
def aggRowKey (r : AggRow) : AggKey :=
  ⟨r.ticker, r.cik, r.period_end, r.period_type, r.statement, r.line_item, r.unit⟩

/-- The key tuple named by the uniqueness claim, which omits `cik`. -/
def claimedKey (r : AggRow) : String × Int × String × String × String × String :=
  (r.ticker, r.period_end, r.period_type, r.statement, r.line_item, r.unit)

/-- The guard-and-key computation at the top of the aggregation loop
(canonical.py lines 70-84): drop disallowed/valueless rows, default the
period end, normalize period type and unit, and build the grouping key. -/
def aggKeyOf (dpe : Option Int) (row : RawRow) : Option AggKey :=
  if !(is_allowed row.statement row.line_item) then none
  else
    match row.value, row.statement, row.line_item, pyOrDate row.period_end dpe with
    | some _, some stmt, some li, some pe =>
        if stmt == "" || li == "" then none
        else
          some ⟨pyUpper (row.ticker.getD ""), row.cik, pe,
                normalize_period_type row.statement row.period_type,
                stmt, li, normalize_unit row.unit⟩
    | _, _, _, _ => none

/-- Dict lookup in the `aggregated` association list. -/
def lookupAgg (m : List (AggKey × AggRow)) (k : AggKey) : Option AggRow :=
  (m.find? (fun p => p.1 == k)).map (fun p => p.2)

/-- In-place mutation of the entry stored under key `k`. -/
def replaceAgg (m : List (AggKey × AggRow)) (k : AggKey) (v : AggRow) :
    List (AggKey × AggRow) :=
  m.map (fun p => if p.1 == k then (k, v) else p)

/-- The first-insertion row (canonical.py lines 89-101). -/
def newAggRow (row : RawRow) (key : AggKey) (value : ℚ) : AggRow :=
  ⟨key.ticker, key.cik, row.accession, row.period_start, key.period_end,
   key.period_type, key.statement, key.line_item, value, key.unit, row.id⟩

/-- The replacement row built when the incoming accession wins
(canonical.py lines 111-122); note that no `period_start` is set. -/
def replacementRow (row : RawRow) (key : AggKey) (value : ℚ) : AggRow :=
  ⟨key.ticker, key.cik, row.accession, none, key.period_end,
   key.period_type, key.statement, key.line_item, value, key.unit, row.id⟩

/-- `choose_current` (canonical.py lines 103-107). -/
def chooseCurrent (accession existingAccession : Option String) : Bool :=
  if pyTruthyStr accession && pyTruthyStr existingAccession then
    pyStrGt accession existingAccession
  else if pyTruthyStr accession && !(pyTruthyStr existingAccession) then true
  else false

/-- `choose_new` of the `cash_flow`/`income_statement` duplicate-resolution
branch (canonical.py lines 126-139): shortest duration first, then magnitude
(smaller for cash flow, larger otherwise). -/
def durationChooseNew (existing : AggRow) (row : RawRow) (key : AggKey) (value : ℚ) :
    Bool :=
  let current_duration := duration_days existing.period_start (some existing.period_end)
  let new_duration := duration_days row.period_start (some key.period_end)
  match current_duration, new_duration with
  | none, some _ => true
  | some cd, some nd =>
      if nd < cd then true
      else if key.statement == "cash_flow" then decide (|value| < |existing.value|)
      else decide (|existing.value| < |value|)
  | _, _ =>
      if key.statement == "cash_flow" then decide (|value| < |existing.value|)
      else decide (|existing.value| < |value|)

/-- The duplicate-resolution branch for `cash_flow`/`income_statement`
(canonical.py lines 124-149). -/
def durationBranchRow (existing : AggRow) (row : RawRow) (key : AggKey) (value : ℚ) :
    Option AggRow :=
  if durationChooseNew existing row key value then
    some { existing with
           value := value
           accession := if pyTruthyStr row.accession then row.accession else existing.accession
           period_start := pyOrDate row.period_start existing.period_start
           source_fact_id := if row.id.isSome then row.id else existing.source_fact_id }
  else none

/-- The default (balance-sheet) duplicate-resolution branch
(canonical.py lines 150-156): keep the larger magnitude. -/
def magnitudeBranchRow (existing : AggRow) (row : RawRow) (value : ℚ) : Option AggRow :=
  if decide (|existing.value| < |value|) then
    some { existing with
           value := value
           accession :=
             if pyTruthyStr row.accession && !(pyTruthyStr existing.accession) then
               row.accession
             else existing.accession
           source_fact_id := if row.id.isSome then row.id else existing.source_fact_id }
  else none

/-- One iteration of the aggregation loop (canonical.py lines 69-156). -/
def aggStep (dpe : Option Int) (m : List (AggKey × AggRow)) (row : RawRow) :
    List (AggKey × AggRow) :=
  match aggKeyOf dpe row, row.value with
  | some key, some value =>
      match lookupAgg m key with
      | none => m ++ [(key, newAggRow row key value)]
      | some existing =>
          if chooseCurrent row.accession existing.accession then
            replaceAgg m key (replacementRow row key value)
          else if key.statement == "cash_flow" || key.statement == "income_statement" then
            match durationBranchRow existing row key value with
            | some updated => replaceAgg m key updated
            | none => m
          else
            match magnitudeBranchRow existing row value with
            | some updated => replaceAgg m key updated
            | none => m
  | _, _ => m

/-- The output ordering `sorted(..., key=(period_end, statement, line_item))`
(canonical.py line 157 and the derivation helpers). -/
def canonLE (a b : AggRow) : Bool :=
  decide (a.period_end < b.period_end) ||
    (a.period_end == b.period_end &&
      (strLtB a.statement.data b.statement.data ||
        (a.statement == b.statement && !(strLtB b.line_item.data a.line_item.data))))

/-- `canonLE` as a decidable relation. -/
def canonRel (a b : AggRow) : Prop := canonLE a b = true

instance : DecidableRel canonRel := fun a b => instDecidableEqBool (canonLE a b) true

/-- Python `sorted` is a stable sort; insertion sort (structural, hence
kernel-reducible) computes the same result. -/
def sortCanon (rows : List AggRow) : List AggRow :=
  List.insertionSort canonRel rows

/-- `aggregate_canonical_rows` (canonical.py lines 50-157). -/
def aggregate_canonical_rows (rows : List RawRow) (dpe : Option Int) : List AggRow :=
  sortCanon ((rows.foldl (aggStep dpe) []).map (fun p => p.2))

/-!
### Derived line items (canonical.py lines 160-404)
-/

/-- Python dict comprehension `{r["line_item"]: r for r in period_rows}` keeps the
last row per line item. -/
def lineMapLast (period_rows : List AggRow) (item : String) : Option AggRow :=
  period_rows.reverse.find? (fun r => r.line_item == item)

/-- `RESIDUAL_TOLERANCE` (canonical.py line 19, default `1e-2`). -/
def RESIDUAL_TOLERANCE : ℚ := 1 / 100

/-- `_residual` (canonical.py lines 175-214): residual of a balance-sheet total
over its components, emitted only when the target is absent and the residual is
non-trivial. -/
def residualRow (total_item : String) (component_items : List String)
    (derived_item : String) (period_rows : List AggRow) : Option AggRow :=
  if (lineMapLast period_rows derived_item).isSome then none
  else
    match lineMapLast period_rows total_item with
    | none => none
    | some total_row =>
        let total_val := total_row.value
        let unit := total_row.unit
        let subtotal := component_items.foldl
          (fun acc item =>
            match lineMapLast period_rows item with
            | none => acc
            | some r =>
                if pyTruthyStr (some unit) && pyTruthyStr (some r.unit) && !(r.unit == unit) then
                  acc
                else acc + r.value)
          0
        let residual := total_val - subtotal
        if |residual| ≤ RESIDUAL_TOLERANCE then none
        else
          some ⟨total_row.ticker, total_row.cik, total_row.accession,
                total_row.period_start, total_row.period_end, total_row.period_type,
                "balance_sheet", derived_item, residual, unit, none⟩

/-- The four residual derivations attempted for one period
(canonical.py lines 216-240). -/
def bsResidualsForPeriod (period_rows : List AggRow) : List AggRow :=
  [residualRow "assets_current"
     ["cash", "short_term_investments", "accounts_receivable", "inventory", "prepaid_expenses"]
     "other_assets_current" period_rows,
   residualRow "assets_noncurrent"
     ["ppe", "goodwill", "intangible_assets"]
     "other_assets_noncurrent" period_rows,
   residualRow "liabilities_current"
     ["accounts_payable", "accrued_expenses", "deferred_revenue_current", "debt_current"]
     "other_liabilities_current" period_rows,
   residualRow "liabilities_noncurrent"
     ["deferred_revenue_noncurrent", "debt_long_term", "minority_interest"]
     "other_liabilities_noncurrent" period_rows].filterMap id

/-- `_add_balance_sheet_residuals` (canonical.py lines 160-245). -/
def add_balance_sheet_residuals (rows : List AggRow) : List AggRow :=
  let bsRows := rows.filter (fun r => r.statement == "balance_sheet")
  let periods := (bsRows.map (fun r => r.period_end)).dedup
  let derived := periods.flatMap
    (fun p => bsResidualsForPeriod (bsRows.filter (fun r => r.period_end == p)))
  if derived.isEmpty then rows else sortCanon (rows ++ derived)

/-- `_value` from `_add_income_statement_derivations` (canonical.py lines 282-288). -/
def valueWithUnit (row : Option AggRow) (unit : Option String) : Option ℚ :=
  match row with
  | none => none
  | some r =>
      if pyTruthyStr unit && pyTruthyStr (some r.unit) && !(some r.unit == unit) then none
      else some r.value

/-- `_append_row` (canonical.py lines 261-276). -/
def appendRowIS (template : AggRow) (line_item : String) (value : ℚ) : AggRow :=
  ⟨template.ticker, template.cik, template.accession, template.period_start,
   template.period_end, template.period_type, "income_statement", line_item,
   value, template.unit, none⟩

/-- The derived `cogs` row (canonical.py lines 294-299). -/
def cogsDerivedRow (isRows : List AggRow) : Option AggRow :=
  if (lineMapLast isRows "cogs").isSome then none
  else
    match lineMapLast isRows "revenue", lineMapLast isRows "gross_profit" with
    | some rev, some gp =>
        if rev.unit == gp.unit then
          match valueWithUnit (some rev) (some rev.unit),
              valueWithUnit (some gp) (some rev.unit) with
          | some rev_val, some gp_val => some (appendRowIS rev "cogs" (rev_val - gp_val))
          | _, _ => none
        else none
    | _, _ => none

/-- `line_map.get("cogs")` after the possible `cogs` insertion
(canonical.py line 299 updates `line_map`). -/
def cogsEntryOf (isRows : List AggRow) : Option AggRow :=
  match cogsDerivedRow isRows with
  | some c => some c
  | none => lineMapLast isRows "cogs"

/-- The derived `total_expenses` row (canonical.py lines 301-306). -/
def teDerivedRow (isRows : List AggRow) : Option AggRow :=
  if (lineMapLast isRows "total_expenses").isSome then none
  else
    match lineMapLast isRows "operating_expenses" with
    | none => none
    | some oe =>
        match valueWithUnit (some oe) (some oe.unit),
            valueWithUnit (cogsEntryOf isRows) (some oe.unit) with
        | some op_val, some cogs_val =>
            some (appendRowIS oe "total_expenses" (op_val + cogs_val))
        | _, _ => none

/-- The derived `ebitda` row (canonical.py lines 308-315). -/
def ebitdaDerivedRow (isRows cashRows : List AggRow) : Option AggRow :=
  if (lineMapLast isRows "ebitda").isSome then none
  else
    match lineMapLast isRows "operating_income",
        lineMapLast cashRows "depreciation_amortization" with
    | some oi, some dep =>
        if oi.unit == dep.unit then
          match valueWithUnit (some oi) (some oi.unit),
              valueWithUnit (some dep) (some oi.unit) with
          | some op_val, some dep_val => some (appendRowIS oi "ebitda" (op_val + dep_val))
          | _, _ => none
        else none
    | _, _ => none

/-- The income-statement derivations attempted for one period
(canonical.py lines 278-315): `cogs`, `total_expenses`, `ebitda`. -/
def isDerivationsForPeriod (period_rows : List AggRow) : List AggRow :=
  let isRows := period_rows.filter (fun r => r.statement == "income_statement")
  let cashRows := period_rows.filter (fun r => r.statement == "cash_flow")
  [cogsDerivedRow isRows, teDerivedRow isRows,
   ebitdaDerivedRow isRows cashRows].filterMap id

/-- `_add_income_statement_derivations` (canonical.py lines 248-320). -/
def add_income_statement_derivations (rows : List AggRow) : List AggRow :=
  let periods := (rows.map (fun r => r.period_end)).dedup
  let derived := periods.flatMap
    (fun p => isDerivationsForPeriod (rows.filter (fun r => r.period_end == p)))
  if derived.isEmpty then rows else sortCanon (rows ++ derived)

/-- `_value` from `_add_cash_flow_residuals` (canonical.py lines 345-352). -/
def cfValue (row : Option AggRow) (base_unit : String) : Option ℚ :=
  match row with
  | none => none
  | some r =>
      if pyTruthyStr (some base_unit) && pyTruthyStr (some r.unit) && !(r.unit == base_unit) then
        none
      else some r.value

/-- `_append` from `_add_cash_flow_residuals` (canonical.py lines 354-369). -/
def appendRowCF (template : AggRow) (line_item : String) (value : ℚ) (base_unit : String) :
    AggRow :=
  ⟨template.ticker, template.cik, template.accession, template.period_start,
   template.period_end, template.period_type, "cash_flow", line_item,
   value, base_unit, none⟩

/-- The template row `line_map.get("cfo") or ... or line_map.get("change_in_cash")`
(canonical.py line 340). -/
def cfTemplate (prs : List AggRow) : Option AggRow :=
  match lineMapLast prs "cfo" with
  | some t => some t
  | none =>
      match lineMapLast prs "cfi" with
      | some t => some t
      | none =>
          match lineMapLast prs "cff" with
          | some t => some t
          | none => lineMapLast prs "change_in_cash"

/-- The derived `change_in_cash` row (canonical.py lines 375-383). -/
def cfD1 (prs : List AggRow) (template : AggRow) : Option AggRow :=
  let base_unit := template.unit
  if (lineMapLast prs "change_in_cash").isSome then none
  else
    match cfValue (lineMapLast prs "cfo") base_unit,
        cfValue (lineMapLast prs "cfi") base_unit,
        cfValue (lineMapLast prs "cff") base_unit with
    | some o, some i, some f =>
        let total := o + i + f
        let total :=
          match cfValue (lineMapLast prs "fx_on_cash") base_unit with
          | some fx => total + fx
          | none => total
        let total :=
          match cfValue (lineMapLast prs "change_in_restricted_cash") base_unit with
          | some rc => total + rc
          | none => total
        some (appendRowCF template "change_in_cash" total base_unit)
    | _, _, _ => none

/-- `line_map` after the possible `change_in_cash` append (the `_append`
mutation, canonical.py line 369). -/
def cfLm1 (prs : List AggRow) (template : AggRow) (it : String) : Option AggRow :=
  if it == "change_in_cash" then
    match cfD1 prs template with
    | some r => some r
    | none => lineMapLast prs it
  else lineMapLast prs it

/-- The derived `fx_on_cash` row (canonical.py lines 385-392). -/
def cfD2 (prs : List AggRow) (template : AggRow) : Option AggRow :=
  let base_unit := template.unit
  if (lineMapLast prs "fx_on_cash").isSome then none
  else
    match cfValue (cfLm1 prs template "change_in_cash") base_unit,
        cfValue (lineMapLast prs "cfo") base_unit,
        cfValue (lineMapLast prs "cfi") base_unit,
        cfValue (lineMapLast prs "cff") base_unit with
    | some cic, some o, some i, some f =>
        let fx_val := cic - (o + i + f)
        let fx_val :=
          match cfValue (cfLm1 prs template "change_in_restricted_cash") base_unit with
          | some rc => fx_val - rc
          | none => fx_val
        some (appendRowCF template "fx_on_cash" fx_val base_unit)
    | _, _, _, _ => none

/-- `line_map` after the possible `fx_on_cash` append. -/
def cfLm2 (prs : List AggRow) (template : AggRow) (it : String) : Option AggRow :=
  if it == "fx_on_cash" then
    match cfD2 prs template with
    | some r => some r
    | none => cfLm1 prs template it
  else cfLm1 prs template it

/-- The derived `change_in_restricted_cash` row (canonical.py lines 394-399). -/
def cfD3 (prs : List AggRow) (template : AggRow) : Option AggRow :=
  let base_unit := template.unit
  if (lineMapLast prs "change_in_restricted_cash").isSome then none
  else
    match cfValue (cfLm2 prs template "change_in_cash") base_unit,
        cfValue (lineMapLast prs "cfo") base_unit,
        cfValue (lineMapLast prs "cfi") base_unit,
        cfValue (lineMapLast prs "cff") base_unit,
        cfValue (cfLm2 prs template "fx_on_cash") base_unit with
    | some cic, some o, some i, some f, some fx =>
        some (appendRowCF template "change_in_restricted_cash"
          (cic - (o + i + f + fx)) base_unit)
    | _, _, _, _, _ => none

/-- The cash-flow residual derivations attempted for one period
(canonical.py lines 338-399); the `line_map` mutation performed by `_append`
is modelled by the explicit overlays `cfLm1`/`cfLm2`. -/
def cfResidualsForPeriod (period_rows : List AggRow) : List AggRow :=
  match cfTemplate period_rows with
  | none => []
  | some template =>
      [cfD1 period_rows template, cfD2 period_rows template,
       cfD3 period_rows template].filterMap id

/-- `_add_cash_flow_residuals` (canonical.py lines 323-404). -/
def add_cash_flow_residuals (rows : List AggRow) : List AggRow :=
  let cfRows := rows.filter (fun r => r.statement == "cash_flow")
  let periods := (cfRows.map (fun r => r.period_end)).dedup
  let derived := periods.flatMap
    (fun p => cfResidualsForPeriod (cfRows.filter (fun r => r.period_end == p)))
  if derived.isEmpty then rows else sortCanon (rows ++ derived)

/-- The aggregation pipeline run by `materialize_canonical_for_ticker`
(canonical.py lines 510-518): aggregate, then add the three families of
derived rows. -/
def canonicalPipeline (rows : List RawRow) (dpe : Option Int) : List AggRow :=
  add_cash_flow_residuals
    (add_income_statement_derivations
      (add_balance_sheet_residuals (aggregate_canonical_rows rows dpe)))

/-- Modelled from the spec: the function `_align_cash_flow_starts` is imported
from `workers.canonical` by `src/workers/tests/test_canonical.py` but its body
is missing from `src/workers/canonical.py`.  Following spec section 4.3 step 2,
cfi/cff/change_in_cash canonical entries are realigned to the `period_start`
used by `cfo` for the same `period_end`, preferring the raw fact whose start
matches the cfo start when one exists (in which case its value is taken). -/
def align_cash_flow_starts (rows : List AggRow) (fact_rows : List RawRow) : List AggRow :=
  rows.map (fun row =>
    if row.statement == "cash_flow" &&
        (row.line_item == "cfi" || row.line_item == "cff" ||
          row.line_item == "change_in_cash") then
      match rows.find? (fun r =>
          r.statement == "cash_flow" && r.line_item == "cfo" &&
          r.period_end == row.period_end) with
      | none => row
      | some cfoRow =>
          if row.period_start == cfoRow.period_start then row
          else
            match fact_rows.find? (fun f =>
                f.statement == some "cash_flow" && f.line_item == some row.line_item &&
                f.period_end == some row.period_end &&
                f.period_start == cfoRow.period_start && f.value.isSome) with
            | some f =>
                { row with
                  period_start := cfoRow.period_start
                  value := f.value.getD row.value
                  source_fact_id := f.id }
            | none => { row with period_start := cfoRow.period_start }
    else row)

/-!
## `src/workers/parser.py`

The HTML/BeautifulSoup boundary is abstracted: the embedding starts from the
resolved context map, unit map, fallbacks and the list of inline tags, and
covers the anchor-context collection and fact-emission loops
(parser.py lines 218-271).  Tag-map lookup (`workers/tag_map.py` is not in the
sources) and numeric text parsing are parameters.
-/

/-- Resolved context data (parser.py lines 207-213). -/
structure CtxData where
  period_end : Option Int
  period_type : Option String
  start : Option Int
deriving Repr, DecidableEq

/-- One inline-XBRL fact tag with its attributes; the numeric `scale` attribute
is pre-parsed at the boundary. -/
structure IxTag where
  name : Option String
  contextref : Option String
  text : String
  scale : Option Int
  decimals : Option String
  sign : Option String
  unitref : Option String
  unitAttr : Option String
deriving Repr, DecidableEq

/-- A record emitted by `parse_inline_xbrl` (parser.py lines 258-270). -/
structure ParsedFact where
  line_item : String
  statement : String
  value : Option ℚ
  unit : String
  xbrl_tag : String
  context_ref : Option String
  period_start : Option Int
  period_end : Option Int
  period_type : String
deriving Repr, DecidableEq

/-- `ANCHOR_LINE_ITEMS` (parser.py lines 37-41). -/
def ANCHOR_LINE_ITEMS (stmt : String) : List String :=
  if stmt == "income_statement" then ["revenue", "net_income", "gross_profit", "operating_income"]
  else if stmt == "balance_sheet" then ["assets", "equity", "liabilities_equity", "cash"]
  else if stmt == "cash_flow" then ["cfo", "cfi", "cff", "net_income"]
  else []

/-- `TAG_MAP` normalized to the always-a-list contract
(`mappings = entry if isinstance(entry, list) else [entry]`). -/
def TagMap : Type := List (String × List (String × String))

def lookupTagMap (tm : TagMap) (name : String) : Option (List (String × String)) :=
  ((tm : List (String × List (String × String))).find? (fun p => p.1 == name)).map
    (fun p => p.2)

/-- `_apply_scale` (parser.py lines 66-73); the string-to-int parse of the
attribute happens at the boundary. -/
def applyScale (value : Option ℚ) (scale : Option Int) : Option ℚ :=
  match value, scale with
  | some v, some s => some (v * (10 : ℚ) ^ s)
  | _, _ => value

/-- `_apply_decimals` (parser.py lines 54-63) returns the value unchanged in
every branch (decimals indicate precision, not scale). -/
def applyDecimals (value : Option ℚ) (decimals : Option String) : Option ℚ :=
  let _ := decimals
  value

/-- `_apply_ix_sign` (parser.py lines 76-84). -/
def applyIxSign (value : Option ℚ) (sign : Option String) : Option ℚ :=
  match value with
  | none => none
  | some v =>
      if !(pyTruthyStr sign) then some v
      else
        let sign_value := pyStrip (sign.getD "")
        if pyStartsWith sign_value "-" then some (-|v|)
        else if pyStartsWith sign_value "+" then some |v|
        else some v

/-- `_normalize_unit` (parser.py lines 87-110). -/
def parserNormalizeUnit (raw : Option String) : String :=
  if !(pyTruthyStr raw) then "USD"
  else
    let cleaned := pyStrip (raw.getD "")
    let cleaned :=
      if cleaned.data.contains ':' then
        String.mk ((splitOnColon cleaned.data).getLastD cleaned.data)
      else cleaned
    let cleaned := removeSpaceChars cleaned
    let lowered := pyLower cleaned
    if lowered == "usd" || lowered == "dollar" then "USD"
    else if lowered == "usdpershare" || lowered == "usd/share" || lowered == "usd/shares" ||
        lowered == "usdperstock" || lowered == "usdperstockunit" || lowered == "usdper" ||
        lowered == "usdper_share" || lowered == "usdper-share" then "USDPERSHARE"
    else if lowered == "share" || lowered == "shares" then "SHARES"
    else pyUpper cleaned

/-- `if ctx_ref and ctx_ref not in contexts: continue`
(parser.py lines 226-227 and 244-246). -/
def ctxRefSkip (contexts : List (String × CtxData)) (ctx_ref : Option String) : Bool :=
  pyTruthyStr ctx_ref && !(contexts.any (fun p => some p.1 == ctx_ref))

/-- `contexts.get(ctx_ref or "", {})` (parser.py line 247). -/
def ctxLookup (contexts : List (String × CtxData)) (ctx_ref : Option String) :
    Option CtxData :=
  let k := if pyTruthyStr ctx_ref then ctx_ref.getD "" else ""
  (contexts.find? (fun p => p.1 == k)).map (fun p => p.2)

/-- The context reference one tag contributes to `anchor_contexts[stmt]`
(parser.py lines 219-230). -/
def tagAnchorCtx (tm : TagMap) (contexts : List (String × CtxData)) (tag : IxTag)
    (stmt : String) : Option String :=
  if !(pyTruthyStr tag.name) then none
  else
    match lookupTagMap tm (tag.name.getD "") with
    | none => none
    | some mappings =>
        if ctxRefSkip contexts tag.contextref then none
        else if mappings.any (fun m =>
            m.2 == stmt && (ANCHOR_LINE_ITEMS m.2).contains m.1) &&
            pyTruthyStr tag.contextref then
          tag.contextref
        else none

/-- `anchor_contexts[stmt]` as a list with duplicates (set membership and
non-emptiness agree with the Python set). -/
def anchorsOf (tm : TagMap) (contexts : List (String × CtxData)) (tags : List IxTag)
    (stmt : String) : List String :=
  tags.filterMap (fun t => tagAnchorCtx tm contexts t stmt)

/-- The facts emitted for one tag of the main loop (parser.py lines 233-270),
including the anchor-context preference guard (lines 253-257). -/
def emitFacts (tm : TagMap) (contexts : List (String × CtxData))
    (fallback_period_end : Option Int) (fallback_period_type : Option String)
    (unit_map : List (String × String)) (parseAmount : String → Option ℚ)
    (tags : List IxTag) (tag : IxTag) : List ParsedFact :=
  if !(pyTruthyStr tag.name) then []
  else
    let name := tag.name.getD ""
    match lookupTagMap tm name with
    | none => []
    | some mappings =>
        let amount :=
          applyIxSign (applyDecimals (applyScale (parseAmount tag.text) tag.scale)
            tag.decimals) tag.sign
        if ctxRefSkip contexts tag.contextref then []
        else
          let ctx_data := ctxLookup contexts tag.contextref
          let period_end := pyOrDate (ctx_data.bind (fun c => c.period_end)) fallback_period_end
          let period_start := ctx_data.bind (fun c => c.start)
          let period_type :=
            (pyOrStr (ctx_data.bind (fun c => c.period_type))
              (pyOrStr fallback_period_type (some "unknown"))).getD "unknown"
          let raw_unit := (pyOrStr tag.unitref (pyOrStr tag.unitAttr (some "USD"))).getD "USD"
          let unit :=
            match unit_map.find? (fun p => p.1 == raw_unit) with
            | some p => p.2
            | none => parserNormalizeUnit (some raw_unit)
          mappings.filterMap (fun m =>
            let line_item := m.1
            let statement := m.2
            let anchors := anchorsOf tm contexts tags statement
            let fact : ParsedFact :=
              ⟨line_item, statement, amount, unit, name, tag.contextref,
               period_start, period_end, period_type⟩
            if !(anchors.isEmpty) && !((ANCHOR_LINE_ITEMS statement).contains line_item) then
              if !(pyTruthyStr tag.contextref) || !(anchors.contains (tag.contextref.getD "")) then
                none
              else some fact
            else some fact)

/-- `parse_inline_xbrl` (parser.py lines 171-271), from the resolved contexts on. -/
def parse_inline_xbrl (tm : TagMap) (contexts : List (String × CtxData))
    (fallback_period_end : Option Int) (fallback_period_type : Option String)
    (unit_map : List (String × String)) (parseAmount : String → Option ℚ)
    (tags : List IxTag) : List ParsedFact :=
  tags.flatMap (emitFacts tm contexts fallback_period_end fallback_period_type
    unit_map parseAmount tags)

/-!
## `src/api/app/summary_utils.py`

Period keys (ISO date strings) are modelled as `Int` day numbers; string sort
order on equal-format ISO dates agrees with the numeric order.  The nested
`{line_item: {"value": ..., "unit": ...}}` cells are modelled by their value
component where only the value is read.
-/

/-- `DEFAULT_DRIVERS` (summary_utils.py lines 88-98). -/
def DEFAULT_REVENUE_GROWTH : ℚ := 1 / 50
def DEFAULT_GROSS_MARGIN : ℚ := 2 / 5
def DEFAULT_OPERATING_MARGIN : ℚ := 3 / 20
def DEFAULT_NET_MARGIN : ℚ := 1 / 10
def DEFAULT_TAX_RATE : ℚ := 21 / 100
def DEFAULT_CAPEX_PCT : ℚ := 1 / 20
def DEFAULT_DA_PCT : ℚ := 3 / 100
def DEFAULT_NWC_PCT : ℚ := 1 / 10
def DEFAULT_INTEREST_RATE : ℚ := 1 / 20

/-- One driver record as read by the forecast code: its `value` and the
optional `is_default` flag. -/
structure DriverEntry where
  value : Option ℚ
  is_default : Option Bool
deriving Repr, DecidableEq

/-- `SCENARIO_CONFIG` entries (summary_utils.py lines 101-105). -/
structure ScenarioConfig where
  growth_mult : ℚ
  margin_adj : ℚ
deriving Repr, DecidableEq

/-- `SCENARIO_CONFIG.get(scenario, SCENARIO_CONFIG["base"])`. -/
def scenarioConfig (s : String) : ScenarioConfig :=
  if s == "bull" then ⟨3 / 2, 1 / 50⟩
  else if s == "bear" then ⟨1 / 2, -(1 / 50)⟩
  else ⟨1, 0⟩

/-- `_get_value` (summary_utils.py lines 141-148) on a values dict whose cells
are collapsed to their value component. -/
def getValue (values : List (String × Option ℚ)) (key : String) : Option ℚ :=
  match values.find? (fun p => p.1 == key) with
  | some p => p.2
  | none => none

/-- The per-driver adjustment of `_apply_scenario`
(summary_utils.py lines 457-469). -/
def scenarioAdjust (config : ScenarioConfig) (p : String × DriverEntry) :
    String × Option ℚ :=
  match p.2.value with
  | none => (p.1, none)
  | some val =>
      if p.1 == "revenue_growth" then (p.1, some (val * config.growth_mult))
      else if p.1 == "gross_margin" || p.1 == "operating_margin" ||
          p.1 == "net_margin" || p.1 == "fcf_margin" then
        (p.1, some (max 0 (min 1 (val + config.margin_adj))))
      else (p.1, some val)

/-- `_apply_scenario` (summary_utils.py lines 452-471). -/
def apply_scenario (drivers : List (String × DriverEntry)) (scenario : String) :
    List (String × Option ℚ) :=
  drivers.map (scenarioAdjust (scenarioConfig scenario))

/-- `get_driver` inside `build_forecast` (summary_utils.py lines 509-512). -/
def getDriver (drivers : List (String × DriverEntry)) (key : String) (dflt : Option ℚ) :
    Option ℚ :=
  let val :=
    match drivers.find? (fun p => p.1 == key) with
    | some p => p.2.value
    | none => none
  match val with
  | some v => some v
  | none => dflt

/-- `_next_period_end` (summary_utils.py lines 474-482): a fixed 91-day
quarterly step from the anchor period end. -/
def next_period_end (period_end : Int) (periods_ahead : Nat) : Int :=
  period_end + 91 * periods_ahead

/-- `x * pct if pct else None`: the pervasive truthiness-guarded scaling used
throughout the forecast loop. -/
def scaleBy (x : ℚ) (pct : Option ℚ) : Option ℚ :=
  match pct with
  | some v => if v == 0 then none else some (x * v)
  | none => none

/-- The per-scenario effective drivers of `build_forecast`
(summary_utils.py lines 514-543). -/
structure ScenarioDrivers where
  growth : Option ℚ
  gm : Option ℚ
  om : Option ℚ
  nm : Option ℚ
  tax_rate : Option ℚ
  capex_pct : Option ℚ
  da_pct : Option ℚ
  nwc_pct : Option ℚ
  fcf_margin : Option ℚ
  shares : Option ℚ
  cogs_pct : Option ℚ
  rd_pct : Option ℚ
  sga_pct : Option ℚ
deriving Repr, DecidableEq

/-- One forecast entry (summary_utils.py lines 639-677); the `values` and
`assumptions` payloads are flattened into fields (`a_*` are the assumptions). -/
structure ForecastEntry where
  period_end : Int
  scenario : String
  period_index : Nat
  revenue : Option ℚ
  cogs : Option ℚ
  gross_profit : Option ℚ
  r_and_d : Option ℚ
  sga : Option ℚ
  operating_expenses : Option ℚ
  operating_income : Option ℚ
  pre_tax_income : Option ℚ
  income_tax_expense : Option ℚ
  net_income : Option ℚ
  eps_diluted : Option ℚ
  depreciation_amortization : Option ℚ
  cfo : Option ℚ
  capex : Option ℚ
  fcf : Option ℚ
  cash : Option ℚ
  ppe : Option ℚ
  a_revenue_growth : Option ℚ
  a_gross_margin : Option ℚ
  a_operating_margin : Option ℚ
  a_net_margin : Option ℚ
  a_tax_rate : Option ℚ
  a_capex_pct : Option ℚ
  a_da_pct : Option ℚ
  a_nwc_pct : Option ℚ
  a_shares : Option ℚ
deriving Repr, DecidableEq

/-- One iteration of the per-scenario projection loop of `build_forecast`
(summary_utils.py lines 550-682): the produced forecast entry together with
the next (running cash, running ppe, running revenue) state. -/
def forecastStep (scenario_name : String) (sd : ScenarioDrivers) (latest_period : Int)
    (period_idx : Nat) (running_cash running_ppe running_revenue : ℚ) :
    ForecastEntry × ℚ × ℚ × ℚ :=
  let growth_rate := sd.growth.getD 0
  let projected_revenue := running_revenue * (1 + growth_rate)
  let projected_gross_profit := scaleBy projected_revenue sd.gm
  let projected_cogs :=
    match scaleBy projected_revenue sd.cogs_pct with
    | some c => some c
    | none =>
        match projected_gross_profit with
        | some gpv => some (projected_revenue - gpv)
        | none => none
  let projected_rd := scaleBy projected_revenue sd.rd_pct
  let projected_sga := scaleBy projected_revenue sd.sga_pct
  let projected_op_income := scaleBy projected_revenue sd.om
  let projected_opex :=
    match projected_rd, projected_sga with
    | some r, some s => some (r + s)
    | _, _ =>
        match projected_gross_profit, projected_op_income with
        | some g, some o => some (g - o)
        | _, _ => none
  let projected_pre_tax := projected_op_income
  let projected_tax :=
    if pyTruthyQ projected_pre_tax && pyTruthyQ sd.tax_rate then
      some (projected_pre_tax.getD 0 * sd.tax_rate.getD 0)
    else none
  let projected_net_income :=
    match scaleBy projected_revenue sd.nm with
    | some v => some v
    | none =>
        match projected_pre_tax, projected_tax with
        | some pt, some tx => some (pt - tx)
        | _, _ => none
  let projected_eps :=
    if pyTruthyQ sd.shares && pyTruthyQ projected_net_income then
      some (projected_net_income.getD 0 / sd.shares.getD 0)
    else none
  let projected_da := scaleBy projected_revenue sd.da_pct
  let projected_capex := (scaleBy projected_revenue sd.capex_pct).map (fun v => -v)
  let projected_nwc := scaleBy projected_revenue sd.nwc_pct
  let prior_nwc := scaleBy running_revenue sd.nwc_pct
  let delta_nwc :=
    match projected_nwc, prior_nwc with
    | some a, some b => a - b
    | _, _ => 0
  let projected_fcf :=
    match projected_net_income with
    | some ni =>
        let f := ni
        let f :=
          match projected_da with
          | some d => if d == 0 then f else f + d
          | none => f
        let f :=
          match projected_capex with
          | some c => if c == 0 then f else f + c
          | none => f
        some (f - delta_nwc)
    | none =>
        if pyTruthyQ sd.fcf_margin then some (projected_revenue * sd.fcf_margin.getD 0)
        else none
  let projected_cfo :=
    match projected_net_income with
    | some ni => some (ni + pyOrQD projected_da 0 - delta_nwc)
    | none => none
  let running_cash2 :=
    if pyTruthyQ projected_fcf then running_cash + projected_fcf.getD 0
    else running_cash
  let running_ppe2 :=
    if pyTruthyQ projected_capex && pyTruthyQ projected_da then
      running_ppe - projected_capex.getD 0 - projected_da.getD 0
    else running_ppe
  let entry : ForecastEntry :=
    ⟨next_period_end latest_period period_idx, scenario_name, period_idx,
     some projected_revenue, projected_cogs, projected_gross_profit,
     projected_rd, projected_sga, projected_opex, projected_op_income,
     projected_pre_tax, projected_tax, projected_net_income, projected_eps,
     projected_da, projected_cfo, projected_capex, projected_fcf,
     some running_cash2, some running_ppe2,
     sd.growth, sd.gm, sd.om, sd.nm, sd.tax_rate, sd.capex_pct, sd.da_pct,
     sd.nwc_pct, sd.shares⟩
  (entry, running_cash2, running_ppe2, projected_revenue)

/-- The per-scenario projection loop of `build_forecast`
(summary_utils.py lines 550-682), by recursion on the number of remaining
periods. -/
def buildScenarioPeriods (scenario_name : String) (sd : ScenarioDrivers)
    (latest_period : Int) :
    Nat → Nat → ℚ → ℚ → ℚ → List ForecastEntry
  | 0, _, _, _, _ => []
  | rem + 1, period_idx, running_cash, running_ppe, running_revenue =>
      let st := forecastStep scenario_name sd latest_period period_idx
        running_cash running_ppe running_revenue
      st.1 :: buildScenarioPeriods scenario_name sd latest_period rem
        (period_idx + 1) st.2.1 st.2.2.1 st.2.2.2

/-- `build_forecast` (summary_utils.py lines 485-684). -/
def build_forecast (latest_period : Int) (latest_values : List (String × Option ℚ))
    (drivers : List (String × DriverEntry)) (num_periods : Nat)
    (include_scenarios : Bool) : List ForecastEntry :=
  match getValue latest_values "revenue" with
  | none => []
  | some revenue =>
      let base_growth := getDriver drivers "revenue_growth" (some DEFAULT_REVENUE_GROWTH)
      let gross_margin := getDriver drivers "gross_margin" (some DEFAULT_GROSS_MARGIN)
      let op_margin := getDriver drivers "operating_margin" (some DEFAULT_OPERATING_MARGIN)
      let net_margin := getDriver drivers "net_margin" (some DEFAULT_NET_MARGIN)
      let tax_rate := getDriver drivers "tax_rate" (some DEFAULT_TAX_RATE)
      let capex_pct := getDriver drivers "capex_pct" (some DEFAULT_CAPEX_PCT)
      let da_pct := getDriver drivers "da_pct" (some DEFAULT_DA_PCT)
      let nwc_pct := getDriver drivers "nwc_pct" (some DEFAULT_NWC_PCT)
      let fcf_margin := getDriver drivers "fcf_margin" none
      let shares := getDriver drivers "shares" none
      let cogs_pct := getDriver drivers "cogs_pct" none
      let rd_pct := getDriver drivers "rd_pct" none
      let sga_pct := getDriver drivers "sga_pct" none
      let starting_cash := pyOrQD (getValue latest_values "cash") 0
      let starting_ppe := pyOrQD (getValue latest_values "ppe") 0
      let scenarios_to_run := if include_scenarios then ["base", "bull", "bear"] else ["base"]
      scenarios_to_run.flatMap (fun scenario_name =>
        let adjusted := apply_scenario drivers scenario_name
        let sd : ScenarioDrivers :=
          ⟨pyOrQ (getValue adjusted "revenue_growth") base_growth,
           pyOrQ (getValue adjusted "gross_margin") gross_margin,
           pyOrQ (getValue adjusted "operating_margin") op_margin,
           pyOrQ (getValue adjusted "net_margin") net_margin,
           tax_rate, capex_pct, da_pct, nwc_pct, fcf_margin, shares,
           cogs_pct, rd_pct, sga_pct⟩
        buildScenarioPeriods scenario_name sd latest_period num_periods 1
          starting_cash starting_ppe revenue)

/-!
### `compute_drivers`: the tax-rate driver slice
-/

/-- `sorted(metrics.keys(), reverse=True)` (stable; insertion sort computes
the same result and reduces in the kernel). -/
def descRel (a b : Int) : Prop := b ≤ a

instance : DecidableRel descRel := fun a b => Int.decLe b a

def sortedDesc (l : List Int) : List Int :=
  List.insertionSort descRel l

/-- `sorted_periods[0]` (summary_utils.py lines 224-225). -/
def latestPeriodKey (metrics : List (Int × List (String × Option ℚ))) : Option Int :=
  (sortedDesc (metrics.map (fun p => p.1))).head?

/-- `metrics[latest]["values"]`. -/
def valuesOf (metrics : List (Int × List (String × Option ℚ))) (period : Int) :
    List (String × Option ℚ) :=
  match metrics.find? (fun p => p.1 == period) with
  | some p => p.2
  | none => []

/-- `_safe_div` (summary_utils.py lines 134-138). -/
def safeDiv (num den : Option ℚ) : Option ℚ :=
  match num, den with
  | some n, some d => if d == 0 then none else some (n / d)
  | _, _ => none

/-- The observed effective tax ratio of the latest period:
`_safe_div(income_tax, pre_tax_income)` (summary_utils.py lines 237-238, 321). -/
def observedTaxRatio (metrics : List (Int × List (String × Option ℚ))) : Option ℚ :=
  match latestPeriodKey metrics with
  | none => none
  | some latest =>
      let latest_values := valuesOf metrics latest
      safeDiv (getValue latest_values "income_tax_expense")
        (getValue latest_values "pre_tax_income")

/-- The `tax_rate` driver produced by `compute_drivers`
(summary_utils.py lines 221-226, 320-323 and 401-406): observed ratio, replaced
by the default when outside `[0, 0.5]`, then the `value`/`is_default` entry. -/
def taxRateDriver (metrics : List (Int × List (String × Option ℚ))) :
    Option DriverEntry :=
  if metrics.isEmpty then none
  else
    let tax_rate := observedTaxRatio metrics
    let tax_rate :=
      match tax_rate with
      | some t => if t < 0 ∨ 1 / 2 < t then some DEFAULT_TAX_RATE else some t
      | none => none
    some ⟨some (pyOrQD tax_rate DEFAULT_TAX_RATE), some tax_rate.isNone⟩

/-!
### `compute_backtest_metrics`
-/

/-- The metrics dict returned by `compute_backtest_metrics`; `float("nan")`
placeholders are modelled as `none`. -/
structure BacktestMetrics where
  mae : Option ℚ
  mape : Option ℚ
  directional_accuracy : Option ℚ
  interval_coverage : Option ℚ
deriving Repr, DecidableEq

/-- Python truthiness of an optional list argument: `None` and `[]` are falsy. -/
def pyTruthyList (l : Option (List (Option ℚ))) : Bool :=
  match l with
  | none => false
  | some xs => !(xs.isEmpty)

/-- `compute_backtest_metrics` (summary_utils.py lines 735-786); `raise
ValueError` becomes `Except.error`. -/
def compute_backtest_metrics (actuals forecasts : List (Option ℚ))
    (interval_low interval_high : Option (List (Option ℚ))) :
    Except String BacktestMetrics :=
  if actuals.length ≠ forecasts.length then
    Except.error "actuals and forecasts must be the same length"
  else if pyTruthyList interval_low &&
      !((interval_low.getD []).length == actuals.length) then
    Except.error "interval_low must match length of actuals"
  else if pyTruthyList interval_high &&
      !((interval_high.getD []).length == actuals.length) then
    Except.error "interval_high must match length of actuals"
  else
    let paired := (actuals.zip forecasts).filterMap (fun p =>
      match p.1, p.2 with
      | some a, some f => some (a, f)
      | _, _ => none)
    if paired.isEmpty then
      Except.ok ⟨none, none, none, none⟩
    else
      let abs_errors := paired.map (fun p => |p.1 - p.2|)
      let mae := abs_errors.sum / (abs_errors.length : ℚ)
      let mape_vals := paired.filterMap (fun p =>
        if p.1 == 0 then none else some (|p.1 - p.2| / |p.1|))
      let mape :=
        if mape_vals.isEmpty then none
        else some (mape_vals.sum / (mape_vals.length : ℚ))
      let directional_hits := paired.filter (fun p =>
        (decide (0 ≤ p.1) && decide (0 ≤ p.2)) || (decide (p.1 < 0) && decide (p.2 < 0)))
      let directional_accuracy := (directional_hits.length : ℚ) / (paired.length : ℚ)
      let coverage_points :=
        if pyTruthyList interval_low && pyTruthyList interval_high then
          ((actuals.zip (interval_low.getD [])).zip (interval_high.getD [])).filterMap
            (fun p =>
              match p.1.1, p.1.2, p.2 with
              | some a, some lo, some hi =>
                  some (if decide (lo ≤ a) && decide (a ≤ hi) then (1 : ℚ) else 0)
              | _, _, _ => none)
        else []
      let interval_coverage :=
        if coverage_points.isEmpty then none
        else some (coverage_points.sum / (coverage_points.length : ℚ))
      Except.ok ⟨some mae, mape, some directional_accuracy, interval_coverage⟩

/-!
### `compute_tie_checks`
-/

/-- One `{value, start, period_type}` cell of the tie-check metrics input. -/
structure TieCell where
  value : Option ℚ
  start : Option Int
  period_type : Option String
deriving Repr, DecidableEq

def tieCellOf (vals : List (String × TieCell)) (li : String) : Option TieCell :=
  (vals.find? (fun p => p.1 == li)).map (fun p => p.2)

def tieValuesOf (metrics : List (Int × List (String × TieCell))) (period : Int) :
    List (String × TieCell) :=
  match metrics.find? (fun p => p.1 == period) with
  | some p => p.2
  | none => []

/-- `quarterized` (summary_utils.py lines 949-1003): derive the quarter flow
from cumulative YTD values by differencing the prior period. -/
def quarterized (metrics : List (Int × List (String × TieCell))) (ordered : List Int)
    (li : String) (idx : Nat) : Option ℚ :=
  match ordered.get? idx with
  | none => none
  | some period =>
      let current_vals := tieValuesOf metrics period
      match (tieCellOf current_vals li).bind (fun c => c.value) with
      | none => none
      | some val =>
          let start := (tieCellOf current_vals li).bind (fun c => c.start)
          let current_period_type :=
            (pyOrStr ((tieCellOf current_vals li).bind (fun c => c.period_type))
              (some "duration")).getD "duration"
          match ordered.get? (idx + 1) with
          | none => some val
          | some prev_period =>
              let prev_vals := tieValuesOf metrics prev_period
              match (tieCellOf prev_vals li).bind (fun c => c.value) with
              | none => some val
              | some prev_val =>
                  let prev_start := (tieCellOf prev_vals li).bind (fun c => c.start)
                  let prev_period_type :=
                    (pyOrStr ((tieCellOf prev_vals li).bind (fun c => c.period_type))
                      (some "duration")).getD "duration"
                  if current_period_type == "duration" && prev_period_type == "duration" &&
                      ((start.isSome && prev_start.isSome && start == prev_start) ||
                        start.isNone || prev_start.isNone) then
                    some (val - prev_val)
                  else
                    match duration_days start (some period),
                        duration_days prev_start (some prev_period) with
                    | some cd, some pd =>
                        if pd + 7 < cd then some (val - prev_val) else some val
                    | _, _ => some val

/-- One per-period tie-check result (summary_utils.py lines 1048-1058). -/
structure TieResult where
  period_end : Int
  bs_tie : Option ℚ
  cf_sum : Option ℚ
  cash_delta : Option ℚ
  cf_tie : Option ℚ
  status : String
deriving Repr, DecidableEq

/-- The per-period status of `compute_tie_checks` (summary_utils.py lines
1054-1057): `"fail" if (bs_delta is not None and abs(bs_delta) > 1e-2) else
"ok"` - driven from the balance-sheet tie only. -/
def tieStatus (bs_delta : Option ℚ) : String :=
  match bs_delta with
  | some b => if 1 / 100 < |b| then "fail" else "ok"
  | none => "ok"

/-- `compute_tie_checks` (summary_utils.py lines 938-1059). -/
def compute_tie_checks (metrics : List (Int × List (String × TieCell))) :
    List (Int × TieResult) :=
  let ordered := sortedDesc (metrics.map (fun p => p.1))
  (List.range ordered.length).filterMap (fun idx =>
    match ordered.get? idx with
    | none => none
    | some period =>
        let vals := tieValuesOf metrics period
        let liabilities_equity := (tieCellOf vals "liabilities_equity").bind (fun c => c.value)
        let assets := (tieCellOf vals "assets").bind (fun c => c.value)
        let liabilities := (tieCellOf vals "liabilities").bind (fun c => c.value)
        let equity := (tieCellOf vals "equity").bind (fun c => c.value)
        let bs_delta :=
          match liabilities_equity, assets with
          | some le, some a => some (a - le)
          | _, _ =>
              match assets, liabilities, equity with
              | some a, some l, some e => some (a - (l + e))
              | _, _, _ => none
        let cfo := quarterized metrics ordered "cfo" idx
        let cfi := quarterized metrics ordered "cfi" idx
        let cff := quarterized metrics ordered "cff" idx
        let fx_on_cash := pyOrQD (quarterized metrics ordered "fx_on_cash" idx) 0
        let change_rc := pyOrQD (quarterized metrics ordered "change_in_restricted_cash" idx) 0
        let cf_sum :=
          match cfo, cfi, cff with
          | some o, some i, some f => some (o + i + f + fx_on_cash + change_rc)
          | _, _, _ => none
        let prev_cash :=
          match ordered.get? (idx + 1) with
          | some pp => (tieCellOf (tieValuesOf metrics pp) "cash").bind (fun c => c.value)
          | none => none
        let curr_cash := (tieCellOf vals "cash").bind (fun c => c.value)
        let cash_delta :=
          if (tieCellOf vals "change_in_cash").isSome then
            (tieCellOf vals "change_in_cash").bind (fun c => c.value)
          else
            match curr_cash, prev_cash with
            | some c, some p => some (c - p)
            | _, _ => none
        let cf_tie :=
          match cf_sum, cash_delta with
          | some s, some d => some (s - d)
          | _, _ => none
        some (period, ⟨period, bs_delta, cf_sum, cash_delta, cf_tie,
          tieStatus bs_delta⟩))

/-!
## Concrete example inputs used by the theorems below
-/

/-- A `KeyDistinct` list has pairwise-distinct full grouping keys. -/
def KeyDistinct (l : List AggRow) : Prop :=
  l.Pairwise (fun a b => aggRowKey a ≠ aggRowKey b)

/-- Income-statement revenue from the most recent accession `0002`, reported
over the long (180-day) duration, processed first. -/
def c1RowNewer : RawRow :=
  ⟨some 1, some "demo", some "1", some "0002", some 0, some 180, some "duration",
   some "income_statement", some "revenue", some 300, some "usd"⟩

/-- Income-statement revenue from the older accession `0001`, reported over the
short (90-day) duration, processed second. -/
def c1RowOlder : RawRow :=
  ⟨some 2, some "demo", some "1", some "0001", some 90, some 180, some "duration",
   some "income_statement", some "revenue", some 120, some "usd"⟩

/-- Two raw facts identical in every claimed-key component but carrying
different `cik` values. -/
def c2RowCikOne : RawRow :=
  ⟨some 1, some "a", some "1", some "acc", none, some 0, some "instant",
   some "balance_sheet", some "assets", some 1, some "usd"⟩

def c2RowCikTwo : RawRow :=
  ⟨some 2, some "a", some "2", some "acc", none, some 0, some "instant",
   some "balance_sheet", some "assets", some 2, some "usd"⟩

/-- Canonical cash-flow rows for one period: cfo tagged quarterly
(start day 91) and cfi tagged YTD (start day 0). -/
def c3AggRows : List AggRow :=
  [⟨"D", some "1", some "0002", some 91, 181, "duration", "cash_flow", "cfo",
    100, "USD", some 1⟩,
   ⟨"D", some "1", some "0002", some 0, 181, "duration", "cash_flow", "cfi",
    -50, "USD", some 2⟩]

/-- A raw cfi fact whose start matches the cfo start. -/
def c3FactRows : List RawRow :=
  [⟨some 10, some "d", some "1", some "0002", some 91, some 181, some "duration",
    some "cash_flow", some "cfi", some (-40), some "USD"⟩]

/-- A two-entry tag map: `t:Rev` maps to the income-statement anchor `revenue`,
`t:Misc` to the non-anchor `cogs`. -/
def c4TagMap : TagMap :=
  [("t:Rev", [("revenue", "income_statement")]),
   ("t:Misc", [("cogs", "income_statement")])]

def c4Contexts : List (String × CtxData) :=
  [("c1", ⟨some 10, some "duration", some 0⟩)]

/-- The anchor revenue tag, in context `c1`. -/
def c4TagRev : IxTag := ⟨some "t:Rev", some "c1", "100", none, none, none, none, none⟩

/-- A non-anchor cogs tag carrying no context reference at all. -/
def c4TagMisc : IxTag := ⟨some "t:Misc", none, "5", none, none, none, none, none⟩

def c4Tags : List IxTag := [c4TagRev, c4TagMisc]

/-- A trivial numeric-text parser for the concrete parser examples. -/
def c4ParseAmount : String → Option ℚ := fun _ => some 1

/-- Anchor latest values with revenue 100. -/
def c5LatestValues : List (String × Option ℚ) := [("revenue", some 100)]

/-- A revenue-growth driver of 0.25. -/
def c5Drivers : List (String × DriverEntry) := [("revenue_growth", ⟨some (1 / 4), none⟩)]

/-- A revenue-growth driver of exactly zero. -/
def c6ZeroGrowthDrivers : List (String × DriverEntry) := [("revenue_growth", ⟨some 0, none⟩)]

/-- Latest-period metrics with an observed tax ratio of 60/100 = 0.6,
outside the [0, 0.5] guard. -/
def c7Metrics : List (Int × List (String × Option ℚ)) :=
  [(0, [("income_tax_expense", some 60), ("pre_tax_income", some 100)])]

/-- Latest-period metrics with an observed tax ratio of 4/19. -/
def c7WitnessMetrics : List (Int × List (String × Option ℚ)) :=
  [(0, [("income_tax_expense", some 4), ("pre_tax_income", some 19)])]

/-- One period whose cash-flow tie is off by 10 (cfo 10 vs change in cash 0)
while no balance-sheet data exists. -/
def c8Metrics : List (Int × List (String × TieCell)) :=
  [(0, [("cfo", ⟨some 10, none, none⟩), ("cfi", ⟨some 0, none, none⟩),
        ("cff", ⟨some 0, none, none⟩), ("change_in_cash", ⟨some 0, none, none⟩)])]

/-- The spec example: assets 100, liabilities 60, equity 30. -/
def c8WitnessMetrics : List (Int × List (String × TieCell)) :=
  [(0, [("assets", ⟨some 100, none, none⟩), ("liabilities", ⟨some 60, none, none⟩),
        ("equity", ⟨some 30, none, none⟩)])]

/-- A two-period base-only forecast from revenue 100 with growth 0.25. -/
def c5Forecast : List ForecastEntry := build_forecast 0 c5LatestValues c5Drivers 2 false

/-- A one-period forecast with scenarios enabled from revenue 100 with
growth 0.25: entries base, bull, bear in that order. -/
def c6Forecast : List ForecastEntry := build_forecast 0 c5LatestValues c5Drivers 1 true

/-- Stored aggregation state for the C10 witness: one entry under the
revenue key, carrying the older accession `0001` and a period start. -/
def c10Key : AggKey := ⟨"DEMO", some "1", 180, "duration", "income_statement", "revenue", "USD"⟩

def c10Existing : AggRow :=
  ⟨"DEMO", some "1", some "0001", some 0, 180, "duration", "income_statement",
   "revenue", 300, "USD", some 1⟩

/-- An incoming fact with the strictly newer accession `0002` and its own
period start (day 5). -/
def c10Row : RawRow :=
  ⟨some 2, some "demo", some "1", some "0002", some 5, some 180, some "duration",
   some "income_statement", some "revenue", some 120, some "usd"⟩

/-!
# Theorems

Helper lemmas come first; each claim of CLAIMS.json is settled by a single
named theorem (with a witness or counterexample where required).
-/

attribute [local semireducible] Rat.add Rat.mul Rat.sub Rat.inv

theorem lookupAgg_nil (k : AggKey) : lookupAgg [] k = none := rfl

theorem lookupAgg_replaceAgg : ∀ (m : List (AggKey × AggRow)) (k : AggKey) (v e : AggRow),
    lookupAgg m k = some e → lookupAgg (replaceAgg m k v) k = some v
  | [], k, v, e, h => by simp [lookupAgg] at h
  | (pk, pv) :: ps, k, v, e, h => by
      by_cases hp : pk = k
      · subst hp
        simp [lookupAgg, replaceAgg, List.find?_cons]
      · have hbeq : (pk == k) = false := by simpa using hp
        have htail : lookupAgg ps k = some e := by
          simpa [lookupAgg, List.find?_cons, hbeq] using h
        have hrec := lookupAgg_replaceAgg ps k v e htail
        unfold lookupAgg replaceAgg at hrec ⊢
        simp only [List.map_cons]
        rw [if_neg (by simp [hbeq] : ¬ ((pk, pv).1 == k) = true)]
        rw [List.find?_cons]
        simp only [hbeq]
        exact hrec

/-- Claim C1: the dedup-precedence claim fails on the code.  Evaluating
`aggregate_canonical_rows` on the two competing revenue facts of
`c1RowNewer`/`c1RowOlder` — where accession `0002` is strictly more recent
than `0001` — the canonical value is `120`, taken from the OLDER accession
`0001` (whose duration is shorter), not the most recent accession's `300`:
the shortest-duration tie-break runs even when accessions differ, whenever
the newer fact was processed first. -/
theorem c1_most_recent_accession_loses :
    (aggregate_canonical_rows [c1RowNewer, c1RowOlder] none).map
      (fun r => (r.value, r.accession)) = [((120 : ℚ), some "0001")] ∧
    pyStrGt (some "0002") (some "0001") = true := by
  constructor
  · decide
  · decide

/-- Claim C10: whenever a later-processed raw fact supersedes the stored row
for its key because `choose_current` holds (its accession is strictly more
recent, or the stored row has no truthy accession), the aggregation step
stores the replacement record built without any `period_start` — its
`period_start` is `none` regardless of the period starts carried by either
the incoming raw fact or the superseded row. -/
theorem c10_accession_replacement_drops_period_start
    (dpe : Option Int) (m : List (AggKey × AggRow)) (row : RawRow) (key : AggKey)
    (value : ℚ) (existing : AggRow)
    (hkey : aggKeyOf dpe row = some key) (hval : row.value = some value)
    (hlook : lookupAgg m key = some existing)
    (hsup : chooseCurrent row.accession existing.accession = true) :
    lookupAgg (aggStep dpe m row) key = some (replacementRow row key value) ∧
    (replacementRow row key value).period_start = none := by
  refine ⟨?_, rfl⟩
  have hstep : aggStep dpe m row = replaceAgg m key (replacementRow row key value) := by
    simp only [aggStep, hkey, hval, hlook, hsup, if_true]
  rw [hstep]
  exact lookupAgg_replaceAgg m key (replacementRow row key value) existing hlook

/-- Witness for C10 at a concrete input: the stored row under the revenue key
carries accession `0001` and period start day 0, the incoming fact carries the
newer accession `0002` and period start day 5, and the replacement row stored
by the step has no period start. -/
theorem c10_accession_replacement_witness :
    lookupAgg (aggStep none [(c10Key, c10Existing)] c10Row) c10Key =
      some (replacementRow c10Row c10Key 120) ∧
    (replacementRow c10Row c10Key 120).period_start = none :=
  c10_accession_replacement_drops_period_start none [(c10Key, c10Existing)] c10Row
    c10Key 120 c10Existing (by decide) (by decide) (by decide) (by decide)

theorem aggRowKey_ne_of_line_item {a b : AggRow} (h : a.line_item ≠ b.line_item) :
    aggRowKey a ≠ aggRowKey b := by
  intro hk
  exact h (congrArg AggKey.line_item hk)

theorem aggRowKey_ne_of_period_end {a b : AggRow} (h : a.period_end ≠ b.period_end) :
    aggRowKey a ≠ aggRowKey b := by
  intro hk
  exact h (congrArg AggKey.period_end hk)

theorem aggRowKey_ne_of_statement {a b : AggRow} (h : a.statement ≠ b.statement) :
    aggRowKey a ≠ aggRowKey b := by
  intro hk
  exact h (congrArg AggKey.statement hk)

theorem aggRowKey_newAggRow (row : RawRow) (key : AggKey) (v : ℚ) :
    aggRowKey (newAggRow row key v) = key := by
  cases key
  rfl

theorem aggRowKey_replacementRow (row : RawRow) (key : AggKey) (v : ℚ) :
    aggRowKey (replacementRow row key v) = key := by
  cases key
  rfl

theorem durationBranchRow_key {existing : AggRow} {row : RawRow} {key : AggKey} {v : ℚ}
    {u : AggRow} (h : durationBranchRow existing row key v = some u) :
    aggRowKey u = aggRowKey existing := by
  by_cases hb : durationChooseNew existing row key v
  · simp only [durationBranchRow, hb, if_true, Option.some.injEq] at h
    rw [← h]
    rfl
  · simp [durationBranchRow, hb] at h

theorem magnitudeBranchRow_key {existing : AggRow} {row : RawRow} {v : ℚ}
    {u : AggRow} (h : magnitudeBranchRow existing row v = some u) :
    aggRowKey u = aggRowKey existing := by
  by_cases hb : decide (|existing.value| < |v|) = true
  · simp only [magnitudeBranchRow, hb, if_true, Option.some.injEq] at h
    rw [← h]
    rfl
  · simp [magnitudeBranchRow, hb] at h

theorem lookupAgg_eq_none {m : List (AggKey × AggRow)} {k : AggKey}
    (h : lookupAgg m k = none) : ∀ p ∈ m, p.1 ≠ k := by
  intro p hp
  unfold lookupAgg at h
  have hfind := Option.map_eq_none'.mp h
  have := List.find?_eq_none.mp hfind p hp
  simpa using this

theorem lookupAgg_some_mem {m : List (AggKey × AggRow)} {k : AggKey} {e : AggRow}
    (h : lookupAgg m k = some e) : (k, e) ∈ m := by
  unfold lookupAgg at h
  rcases Option.map_eq_some'.mp h with ⟨p, hfind, hpe⟩
  have hmem := List.mem_of_find?_eq_some hfind
  have hkey2 := @List.find?_some (AggKey × AggRow) (fun q => q.1 == k) p m hfind
  have hk : p.1 = k := by simpa using hkey2
  rcases p with ⟨pk, pv⟩
  simp only at hk hpe
  subst hk
  subst hpe
  exact hmem

theorem replaceAgg_fst (m : List (AggKey × AggRow)) (k : AggKey) (v : AggRow) :
    (replaceAgg m k v).map Prod.fst = m.map Prod.fst := by
  unfold replaceAgg
  rw [List.map_map]
  refine List.map_congr_left ?_
  intro p _
  by_cases hp : p.1 = k
  · simp [hp]
  · simp [hp]

theorem mem_replaceAgg {m : List (AggKey × AggRow)} {k : AggKey} {v : AggRow} {q}
    (h : q ∈ replaceAgg m k v) : q = (k, v) ∨ q ∈ m := by
  unfold replaceAgg at h
  rcases List.mem_map.mp h with ⟨p, hp, hq⟩
  by_cases hpk : p.1 = k
  · left
    rw [← hq]
    simp [hpk]
  · right
    rw [← hq]
    simpa [hpk] using hp

/-- The aggregation-state invariant: keys are pairwise distinct and every
stored row carries exactly its key. -/
theorem aggStep_inv (dpe : Option Int) (m : List (AggKey × AggRow)) (row : RawRow)
    (h1 : (m.map Prod.fst).Nodup) (h2 : ∀ p ∈ m, aggRowKey p.2 = p.1) :
    ((aggStep dpe m row).map Prod.fst).Nodup ∧
      ∀ p ∈ aggStep dpe m row, aggRowKey p.2 = p.1 := by
  cases hkey : aggKeyOf dpe row with
  | none =>
      have hstep : aggStep dpe m row = m := by
        simp [aggStep, hkey]
      rw [hstep]
      exact ⟨h1, h2⟩
  | some key =>
    cases hval : row.value with
    | none =>
        have hstep : aggStep dpe m row = m := by
          simp [aggStep, hkey, hval]
        rw [hstep]
        exact ⟨h1, h2⟩
    | some value =>
      have hrep : ∀ u : AggRow, aggRowKey u = key →
          ((replaceAgg m key u).map Prod.fst).Nodup ∧
            ∀ p ∈ replaceAgg m key u, aggRowKey p.2 = p.1 := by
        intro u hu
        constructor
        · rw [replaceAgg_fst]
          exact h1
        · intro p hp
          rcases mem_replaceAgg hp with rfl | hp
          · exact hu
          · exact h2 p hp
      cases hlook : lookupAgg m key with
      | none =>
          have hstep : aggStep dpe m row = m ++ [(key, newAggRow row key value)] := by
            simp [aggStep, hkey, hval, hlook]
          rw [hstep]
          constructor
          · rw [List.map_append, List.nodup_append]
            refine ⟨h1, by simp, ?_⟩
            intro a ha
            rcases List.mem_map.mp ha with ⟨p, hp, hpa⟩
            simp only [List.map_cons, List.map_nil, List.mem_cons, List.not_mem_nil,
              or_false]
            intro hak
            exact lookupAgg_eq_none hlook p hp (by rw [hpa, hak])
          · intro p hp
            rcases List.mem_append.mp hp with hp | hp
            · exact h2 p hp
            · rcases List.mem_singleton.mp hp with rfl
              exact aggRowKey_newAggRow row key value
      | some existing =>
          have hexkey : aggRowKey existing = key :=
            h2 (key, existing) (lookupAgg_some_mem hlook)
          by_cases hcc : chooseCurrent row.accession existing.accession = true
          · have hstep : aggStep dpe m row = replaceAgg m key (replacementRow row key value) := by
              simp [aggStep, hkey, hval, hlook, hcc]
            rw [hstep]
            exact hrep _ (aggRowKey_replacementRow row key value)
          · have hcc2 : chooseCurrent row.accession existing.accession = false := by
              simpa using hcc
            by_cases hst : (key.statement == "cash_flow" || key.statement == "income_statement") = true
            · cases hdur : durationBranchRow existing row key value with
              | none =>
                  have hstep : aggStep dpe m row = m := by
                    simp [aggStep, hkey, hval, hlook, hcc2, hst, hdur]
                  rw [hstep]
                  exact ⟨h1, h2⟩
              | some updated =>
                  have hstep : aggStep dpe m row = replaceAgg m key updated := by
                    simp [aggStep, hkey, hval, hlook, hcc2, hst, hdur]
                  rw [hstep]
                  exact hrep updated ((durationBranchRow_key hdur).trans hexkey)
            · have hst2 : (key.statement == "cash_flow" || key.statement == "income_statement") = false := by
                simpa using hst
              cases hmag : magnitudeBranchRow existing row value with
              | none =>
                  have hstep : aggStep dpe m row = m := by
                    simp [aggStep, hkey, hval, hlook, hcc2, hst2, hmag]
                  rw [hstep]
                  exact ⟨h1, h2⟩
              | some updated =>
                  have hstep : aggStep dpe m row = replaceAgg m key updated := by
                    simp [aggStep, hkey, hval, hlook, hcc2, hst2, hmag]
                  rw [hstep]
                  exact hrep updated ((magnitudeBranchRow_key hmag).trans hexkey)

theorem aggFold_inv (dpe : Option Int) (rows : List RawRow) :
    ∀ m : List (AggKey × AggRow), (m.map Prod.fst).Nodup →
      (∀ p ∈ m, aggRowKey p.2 = p.1) →
      (((rows.foldl (aggStep dpe) m).map Prod.fst).Nodup ∧
        ∀ p ∈ rows.foldl (aggStep dpe) m, aggRowKey p.2 = p.1) := by
  induction rows with
  | nil => intro m h1 h2; exact ⟨h1, h2⟩
  | cons r rs ih =>
      intro m h1 h2
      rcases aggStep_inv dpe m r h1 h2 with ⟨h1s, h2s⟩
      exact ih (aggStep dpe m r) h1s h2s

/-- Insertion sort permutes, so pairwise-distinct keys survive `sortCanon`. -/
theorem sortCanon_keyDistinct {l : List AggRow} (h : KeyDistinct l) :
    KeyDistinct (sortCanon l) := by
  have hperm : (sortCanon l).Perm l := List.perm_insertionSort canonRel l
  exact (List.Perm.pairwise_iff (fun hxy => Ne.symm hxy) hperm).mpr h

/-- The deduplicated output of `aggregate_canonical_rows` has pairwise-distinct
full keys. -/
theorem aggregate_keyDistinct (rows : List RawRow) (dpe : Option Int) :
    KeyDistinct (aggregate_canonical_rows rows dpe) := by
  rcases aggFold_inv dpe rows [] (by simp) (by simp) with ⟨h1, h2⟩
  apply sortCanon_keyDistinct
  have hpair : (List.foldl (aggStep dpe) [] rows).Pairwise (fun p q => p.1 ≠ q.1) := by
    have hmap := List.pairwise_map.mp h1
    exact hmap.imp (fun h => h)
  have hpair2 : (List.foldl (aggStep dpe) [] rows).Pairwise
      (fun p q => aggRowKey p.2 ≠ aggRowKey q.2) := by
    refine hpair.imp_of_mem ?_
    intro p q hp hq hne
    rw [h2 p hp, h2 q hq]
    exact hne
  exact List.pairwise_map.mpr hpair2

/-- Appending derived rows whose keys avoid the originals, then re-sorting,
preserves key distinctness. -/
theorem append_sort_keyDistinct {rows derived : List AggRow}
    (h1 : KeyDistinct rows) (h2 : KeyDistinct derived)
    (h3 : ∀ a ∈ rows, ∀ b ∈ derived, aggRowKey a ≠ aggRowKey b) :
    KeyDistinct (sortCanon (rows ++ derived)) := by
  apply sortCanon_keyDistinct
  exact List.pairwise_append.mpr ⟨h1, h2, h3⟩

/-- Derived rows grouped by period have distinct keys overall when each
period's batch does and every derived row carries its period. -/
theorem flatMap_keyDistinct (periods : List Int) (f : Int → List AggRow)
    (hnd : periods.Nodup)
    (hp : ∀ p, ∀ d ∈ f p, d.period_end = p)
    (hw : ∀ p, KeyDistinct (f p)) :
    KeyDistinct (periods.flatMap f) := by
  induction periods with
  | nil => exact List.Pairwise.nil
  | cons q qs ih =>
      rcases List.nodup_cons.mp hnd with ⟨hq, hqs⟩
      rw [List.flatMap_cons]
      refine List.pairwise_append.mpr ⟨hw q, ih hqs, ?_⟩
      intro a ha b hb
      rcases List.mem_flatMap.mp hb with ⟨q2, hq2, hbq2⟩
      apply aggRowKey_ne_of_period_end
      rw [hp q a ha, hp q2 b hbq2]
      intro hqq
      exact hq (hqq ▸ hq2)

theorem lineMapLast_mem {prs : List AggRow} {it : String} {r : AggRow}
    (h : lineMapLast prs it = some r) : r ∈ prs ∧ r.line_item = it := by
  unfold lineMapLast at h
  have hmem := List.mem_of_find?_eq_some h
  have hp := @List.find?_some AggRow (fun x => x.line_item == it) r prs.reverse h
  exact ⟨List.mem_reverse.mp hmem, by simpa using hp⟩

theorem lineMapLast_none {prs : List AggRow} {it : String}
    (h : lineMapLast prs it = none) : ∀ r ∈ prs, r.line_item ≠ it := by
  intro r hr
  unfold lineMapLast at h
  have := List.find?_eq_none.mp h r (List.mem_reverse.mpr hr)
  simpa using this

theorem pairwise_of_distinct_li {l : List AggRow}
    (hnd : (l.map (fun r => r.line_item)).Nodup) : KeyDistinct l := by
  have hmap := List.pairwise_map.mp hnd
  exact hmap.imp (fun h => aggRowKey_ne_of_line_item h)

theorem residualRow_spec {t : String} {comps : List String} {it : String}
    {prs : List AggRow} {d : AggRow} (h : residualRow t comps it prs = some d) :
    d.statement = "balance_sheet" ∧ d.line_item = it ∧
      (∃ r ∈ prs, d.period_end = r.period_end) ∧ (∀ r ∈ prs, r.line_item ≠ it) := by
  unfold residualRow at h
  by_cases hguard : (lineMapLast prs it).isSome = true
  · rw [if_pos hguard] at h
    cases h
  · rw [if_neg hguard] at h
    have hnone : lineMapLast prs it = none := Option.not_isSome_iff_eq_none.mp hguard
    cases hfind : lineMapLast prs t with
    | none =>
        rw [hfind] at h
        cases h
    | some total_row =>
        rw [hfind] at h
        dsimp only at h
        rcases lineMapLast_mem hfind with ⟨hmem, _⟩
        split at h
        · cases h
        · cases h
          exact ⟨rfl, rfl, ⟨total_row, hmem, rfl⟩, lineMapLast_none hnone⟩

theorem filterMap_four_keyDistinct (o1 o2 o3 o4 : Option AggRow)
    (s1 s2 s3 s4 : String)
    (h1 : ∀ d, o1 = some d → d.line_item = s1)
    (h2 : ∀ d, o2 = some d → d.line_item = s2)
    (h3 : ∀ d, o3 = some d → d.line_item = s3)
    (h4 : ∀ d, o4 = some d → d.line_item = s4)
    (hs : [s1, s2, s3, s4].Nodup) :
    KeyDistinct ([o1, o2, o3, o4].filterMap id) := by
  apply pairwise_of_distinct_li
  rcases o1 with _ | d1 <;> rcases o2 with _ | d2 <;>
    rcases o3 with _ | d3 <;> rcases o4 with _ | d4 <;>
    simp_all [List.filterMap_cons]

theorem filterMap_three_keyDistinct (o1 o2 o3 : Option AggRow)
    (s1 s2 s3 : String)
    (h1 : ∀ d, o1 = some d → d.line_item = s1)
    (h2 : ∀ d, o2 = some d → d.line_item = s2)
    (h3 : ∀ d, o3 = some d → d.line_item = s3)
    (hs : [s1, s2, s3].Nodup) :
    KeyDistinct ([o1, o2, o3].filterMap id) := by
  apply pairwise_of_distinct_li
  rcases o1 with _ | d1 <;> rcases o2 with _ | d2 <;> rcases o3 with _ | d3 <;>
    simp_all [List.filterMap_cons]

theorem bsResidualsForPeriod_spec {prs : List AggRow} {d : AggRow}
    (h : d ∈ bsResidualsForPeriod prs) :
    d.statement = "balance_sheet" ∧ (∃ r ∈ prs, d.period_end = r.period_end) ∧
      (∀ r ∈ prs, r.line_item ≠ d.line_item) := by
  unfold bsResidualsForPeriod at h
  rcases List.mem_filterMap.mp h with ⟨o, ho, hod⟩
  simp only [List.mem_cons, List.not_mem_nil, or_false] at ho
  simp only [id] at hod
  rcases ho with rfl | rfl | rfl | rfl <;>
    · rcases residualRow_spec hod with ⟨hst, hli, hpe, hno⟩
      exact ⟨hst, hpe, by rw [hli]; exact hno⟩

theorem bsResidualsForPeriod_pairwise (prs : List AggRow) :
    KeyDistinct (bsResidualsForPeriod prs) := by
  unfold bsResidualsForPeriod
  refine filterMap_four_keyDistinct _ _ _ _
    "other_assets_current" "other_assets_noncurrent"
    "other_liabilities_current" "other_liabilities_noncurrent"
    ?_ ?_ ?_ ?_ (by decide)
  all_goals
    intro d hd
    exact (residualRow_spec hd).2.1

/-- Claim C2 stage lemma: balance-sheet residuals keep keys distinct. -/
theorem add_balance_sheet_residuals_keyDistinct {rows : List AggRow}
    (h : KeyDistinct rows) : KeyDistinct (add_balance_sheet_residuals rows) := by
  unfold add_balance_sheet_residuals
  dsimp only
  split
  · exact h
  · apply append_sort_keyDistinct h
    · refine flatMap_keyDistinct _ _ (List.nodup_dedup _) ?_ ?_
      · intro p d hd
        rcases bsResidualsForPeriod_spec hd with ⟨_, ⟨r, hr, hpe⟩, _⟩
        rcases List.mem_filter.mp hr with ⟨_, hrp⟩
        rw [hpe]
        simpa using hrp
      · intro p
        exact bsResidualsForPeriod_pairwise _
    · intro a ha b hb
      rcases List.mem_flatMap.mp hb with ⟨p, hpmem, hbp⟩
      rcases bsResidualsForPeriod_spec hbp with ⟨hst, ⟨r, hr, hpe⟩, hno⟩
      rcases List.mem_filter.mp hr with ⟨hrbs, hrp⟩
      intro hk
      have hstmt : a.statement = b.statement := congrArg AggKey.statement hk
      have hpea : a.period_end = b.period_end := congrArg AggKey.period_end hk
      have hlia : a.line_item = b.line_item := congrArg AggKey.line_item hk
      have hbpe : b.period_end = p := by
        rw [hpe]
        simpa using hrp
      have hamem : a ∈ (rows.filter (fun r => r.statement == "balance_sheet")).filter
          (fun r => r.period_end == p) := by
        refine List.mem_filter.mpr ⟨List.mem_filter.mpr ⟨ha, ?_⟩, ?_⟩
        · rcases List.mem_filter.mp hr with ⟨hrbs2, _⟩
          have hbst : b.statement = "balance_sheet" := hst
          simp [hstmt, hbst]
        · simp [hpea, hbpe]
      exact hno a hamem hlia

theorem cogsDerivedRow_spec {isRows : List AggRow} {d : AggRow}
    (h : cogsDerivedRow isRows = some d) :
    d.statement = "income_statement" ∧ d.line_item = "cogs" ∧
      (∃ r ∈ isRows, d.period_end = r.period_end) ∧
      lineMapLast isRows "cogs" = none := by
  unfold cogsDerivedRow at h
  by_cases hg : (lineMapLast isRows "cogs").isSome = true
  · rw [if_pos hg] at h
    cases h
  · rw [if_neg hg] at h
    have hnone := Option.not_isSome_iff_eq_none.mp hg
    cases hrev : lineMapLast isRows "revenue" with
    | none => rw [hrev] at h; cases h
    | some rev =>
        rw [hrev] at h
        cases hgp : lineMapLast isRows "gross_profit" with
        | none => rw [hgp] at h; cases h
        | some gp =>
            rw [hgp] at h
            dsimp only at h
            by_cases hu : (rev.unit == gp.unit) = true
            · rw [if_pos hu] at h
              cases hv1 : valueWithUnit (some rev) (some rev.unit) with
              | none => rw [hv1] at h; cases h
              | some rv =>
                  rw [hv1] at h
                  cases hv2 : valueWithUnit (some gp) (some rev.unit) with
                  | none => rw [hv2] at h; cases h
                  | some gv =>
                      rw [hv2] at h
                      cases h
                      exact ⟨rfl, rfl, ⟨rev, (lineMapLast_mem hrev).1, rfl⟩, hnone⟩
            · rw [if_neg hu] at h
              cases h

theorem teDerivedRow_spec {isRows : List AggRow} {d : AggRow}
    (h : teDerivedRow isRows = some d) :
    d.statement = "income_statement" ∧ d.line_item = "total_expenses" ∧
      (∃ r ∈ isRows, d.period_end = r.period_end) ∧
      lineMapLast isRows "total_expenses" = none := by
  unfold teDerivedRow at h
  by_cases hg : (lineMapLast isRows "total_expenses").isSome = true
  · rw [if_pos hg] at h
    cases h
  · rw [if_neg hg] at h
    have hnone := Option.not_isSome_iff_eq_none.mp hg
    cases hoe : lineMapLast isRows "operating_expenses" with
    | none => rw [hoe] at h; cases h
    | some oe =>
        rw [hoe] at h
        dsimp only at h
        cases hv1 : valueWithUnit (some oe) (some oe.unit) with
        | none => rw [hv1] at h; cases h
        | some ov =>
            rw [hv1] at h
            cases hv2 : valueWithUnit (cogsEntryOf isRows) (some oe.unit) with
            | none => rw [hv2] at h; cases h
            | some cv =>
                rw [hv2] at h
                cases h
                exact ⟨rfl, rfl, ⟨oe, (lineMapLast_mem hoe).1, rfl⟩, hnone⟩

theorem ebitdaDerivedRow_spec {isRows cashRows : List AggRow} {d : AggRow}
    (h : ebitdaDerivedRow isRows cashRows = some d) :
    d.statement = "income_statement" ∧ d.line_item = "ebitda" ∧
      (∃ r ∈ isRows, d.period_end = r.period_end) ∧
      lineMapLast isRows "ebitda" = none := by
  unfold ebitdaDerivedRow at h
  by_cases hg : (lineMapLast isRows "ebitda").isSome = true
  · rw [if_pos hg] at h
    cases h
  · rw [if_neg hg] at h
    have hnone := Option.not_isSome_iff_eq_none.mp hg
    cases hoi : lineMapLast isRows "operating_income" with
    | none => rw [hoi] at h; cases h
    | some oi =>
        rw [hoi] at h
        cases hdep : lineMapLast cashRows "depreciation_amortization" with
        | none => rw [hdep] at h; cases h
        | some dep =>
            rw [hdep] at h
            dsimp only at h
            by_cases hu : (oi.unit == dep.unit) = true
            · rw [if_pos hu] at h
              cases hv1 : valueWithUnit (some oi) (some oi.unit) with
              | none => rw [hv1] at h; cases h
              | some ov =>
                  rw [hv1] at h
                  cases hv2 : valueWithUnit (some dep) (some oi.unit) with
                  | none => rw [hv2] at h; cases h
                  | some dv =>
                      rw [hv2] at h
                      cases h
                      exact ⟨rfl, rfl, ⟨oi, (lineMapLast_mem hoi).1, rfl⟩, hnone⟩
            · rw [if_neg hu] at h
              cases h

theorem cfTemplate_mem {prs : List AggRow} {t : AggRow} (h : cfTemplate prs = some t) :
    t ∈ prs := by
  unfold cfTemplate at h
  cases h1 : lineMapLast prs "cfo" with
  | some x =>
      rw [h1] at h
      cases h
      exact (lineMapLast_mem h1).1
  | none =>
      rw [h1] at h
      cases h2 : lineMapLast prs "cfi" with
      | some x =>
          rw [h2] at h
          cases h
          exact (lineMapLast_mem h2).1
      | none =>
          rw [h2] at h
          cases h3 : lineMapLast prs "cff" with
          | some x =>
              rw [h3] at h
              cases h
              exact (lineMapLast_mem h3).1
          | none =>
              rw [h3] at h
              dsimp only at h
              exact (lineMapLast_mem h).1

theorem cfD1_spec {prs : List AggRow} {template d : AggRow}
    (h : cfD1 prs template = some d) :
    d.statement = "cash_flow" ∧ d.line_item = "change_in_cash" ∧
      d.period_end = template.period_end ∧
      lineMapLast prs "change_in_cash" = none := by
  unfold cfD1 at h
  dsimp only at h
  by_cases hg : (lineMapLast prs "change_in_cash").isSome = true
  · rw [if_pos hg] at h
    cases h
  · rw [if_neg hg] at h
    have hnone := Option.not_isSome_iff_eq_none.mp hg
    cases hv1 : cfValue (lineMapLast prs "cfo") template.unit with
    | none => rw [hv1] at h; cases h
    | some o =>
        rw [hv1] at h
        cases hv2 : cfValue (lineMapLast prs "cfi") template.unit with
        | none => rw [hv2] at h; cases h
        | some i =>
            rw [hv2] at h
            cases hv3 : cfValue (lineMapLast prs "cff") template.unit with
            | none => rw [hv3] at h; cases h
            | some f =>
                rw [hv3] at h
                cases h
                exact ⟨rfl, rfl, rfl, hnone⟩

theorem cfD2_spec {prs : List AggRow} {template d : AggRow}
    (h : cfD2 prs template = some d) :
    d.statement = "cash_flow" ∧ d.line_item = "fx_on_cash" ∧
      d.period_end = template.period_end ∧
      lineMapLast prs "fx_on_cash" = none := by
  unfold cfD2 at h
  dsimp only at h
  by_cases hg : (lineMapLast prs "fx_on_cash").isSome = true
  · rw [if_pos hg] at h
    cases h
  · rw [if_neg hg] at h
    have hnone := Option.not_isSome_iff_eq_none.mp hg
    cases hv0 : cfValue (cfLm1 prs template "change_in_cash") template.unit with
    | none => rw [hv0] at h; cases h
    | some cic =>
        rw [hv0] at h
        cases hv1 : cfValue (lineMapLast prs "cfo") template.unit with
        | none => rw [hv1] at h; cases h
        | some o =>
            rw [hv1] at h
            cases hv2 : cfValue (lineMapLast prs "cfi") template.unit with
            | none => rw [hv2] at h; cases h
            | some i =>
                rw [hv2] at h
                cases hv3 : cfValue (lineMapLast prs "cff") template.unit with
                | none => rw [hv3] at h; cases h
                | some f =>
                    rw [hv3] at h
                    cases h
                    exact ⟨rfl, rfl, rfl, hnone⟩

theorem cfD3_spec {prs : List AggRow} {template d : AggRow}
    (h : cfD3 prs template = some d) :
    d.statement = "cash_flow" ∧ d.line_item = "change_in_restricted_cash" ∧
      d.period_end = template.period_end ∧
      lineMapLast prs "change_in_restricted_cash" = none := by
  unfold cfD3 at h
  dsimp only at h
  by_cases hg : (lineMapLast prs "change_in_restricted_cash").isSome = true
  · rw [if_pos hg] at h
    cases h
  · rw [if_neg hg] at h
    have hnone := Option.not_isSome_iff_eq_none.mp hg
    cases hv0 : cfValue (cfLm2 prs template "change_in_cash") template.unit with
    | none => rw [hv0] at h; cases h
    | some cic =>
        rw [hv0] at h
        cases hv1 : cfValue (lineMapLast prs "cfo") template.unit with
        | none => rw [hv1] at h; cases h
        | some o =>
            rw [hv1] at h
            cases hv2 : cfValue (lineMapLast prs "cfi") template.unit with
            | none => rw [hv2] at h; cases h
            | some i =>
                rw [hv2] at h
                cases hv3 : cfValue (lineMapLast prs "cff") template.unit with
                | none => rw [hv3] at h; cases h
                | some f =>
                    rw [hv3] at h
                    cases hv4 : cfValue (cfLm2 prs template "fx_on_cash") template.unit with
                    | none => rw [hv4] at h; cases h
                    | some fx =>
                        rw [hv4] at h
                        cases h
                        exact ⟨rfl, rfl, rfl, hnone⟩

theorem isDerivationsForPeriod_spec {prs : List AggRow} {d : AggRow}
    (h : d ∈ isDerivationsForPeriod prs) :
    d.statement = "income_statement" ∧ (∃ r ∈ prs, d.period_end = r.period_end) ∧
      (∀ r ∈ prs, r.statement = "income_statement" → r.line_item ≠ d.line_item) := by
  unfold isDerivationsForPeriod at h
  dsimp only at h
  rcases List.mem_filterMap.mp h with ⟨o, ho, hod⟩
  simp only [List.mem_cons, List.not_mem_nil, or_false] at ho
  simp only [id] at hod
  have hsub : ∀ r ∈ prs.filter (fun r => r.statement == "income_statement"),
      r ∈ prs := fun r hr => (List.mem_filter.mp hr).1
  have hmemIs : ∀ r ∈ prs, r.statement = "income_statement" →
      r ∈ prs.filter (fun r => r.statement == "income_statement") := by
    intro r hr hst
    exact List.mem_filter.mpr ⟨hr, by simp [hst]⟩
  rcases ho with rfl | rfl | rfl
  · rcases cogsDerivedRow_spec hod with ⟨hst, hli, ⟨r, hr, hpe⟩, hnone⟩
    refine ⟨hst, ⟨r, hsub r hr, hpe⟩, ?_⟩
    intro q hq hqst
    rw [hli]
    exact lineMapLast_none hnone q (hmemIs q hq hqst)
  · rcases teDerivedRow_spec hod with ⟨hst, hli, ⟨r, hr, hpe⟩, hnone⟩
    refine ⟨hst, ⟨r, hsub r hr, hpe⟩, ?_⟩
    intro q hq hqst
    rw [hli]
    exact lineMapLast_none hnone q (hmemIs q hq hqst)
  · rcases ebitdaDerivedRow_spec hod with ⟨hst, hli, ⟨r, hr, hpe⟩, hnone⟩
    refine ⟨hst, ⟨r, hsub r hr, hpe⟩, ?_⟩
    intro q hq hqst
    rw [hli]
    exact lineMapLast_none hnone q (hmemIs q hq hqst)

theorem isDerivationsForPeriod_pairwise (prs : List AggRow) :
    KeyDistinct (isDerivationsForPeriod prs) := by
  unfold isDerivationsForPeriod
  dsimp only
  refine filterMap_three_keyDistinct _ _ _ "cogs" "total_expenses" "ebitda"
    ?_ ?_ ?_ (by decide)
  · intro d hd
    exact (cogsDerivedRow_spec hd).2.1
  · intro d hd
    exact (teDerivedRow_spec hd).2.1
  · intro d hd
    exact (ebitdaDerivedRow_spec hd).2.1

theorem cfResidualsForPeriod_spec {prs : List AggRow} {d : AggRow}
    (h : d ∈ cfResidualsForPeriod prs) :
    d.statement = "cash_flow" ∧ (∃ r ∈ prs, d.period_end = r.period_end) ∧
      (∀ r ∈ prs, r.line_item ≠ d.line_item) := by
  unfold cfResidualsForPeriod at h
  cases htpl : cfTemplate prs with
  | none =>
      rw [htpl] at h
      cases h
  | some template =>
      rw [htpl] at h
      have htm := cfTemplate_mem htpl
      rcases List.mem_filterMap.mp h with ⟨o, ho, hod⟩
      simp only [List.mem_cons, List.not_mem_nil, or_false] at ho
      simp only [id] at hod
      rcases ho with rfl | rfl | rfl
      · rcases cfD1_spec hod with ⟨hst, hli, hpe, hnone⟩
        refine ⟨hst, ⟨template, htm, hpe⟩, ?_⟩
        intro q hq
        rw [hli]
        exact lineMapLast_none hnone q hq
      · rcases cfD2_spec hod with ⟨hst, hli, hpe, hnone⟩
        refine ⟨hst, ⟨template, htm, hpe⟩, ?_⟩
        intro q hq
        rw [hli]
        exact lineMapLast_none hnone q hq
      · rcases cfD3_spec hod with ⟨hst, hli, hpe, hnone⟩
        refine ⟨hst, ⟨template, htm, hpe⟩, ?_⟩
        intro q hq
        rw [hli]
        exact lineMapLast_none hnone q hq

theorem cfResidualsForPeriod_pairwise (prs : List AggRow) :
    KeyDistinct (cfResidualsForPeriod prs) := by
  unfold cfResidualsForPeriod
  cases htpl : cfTemplate prs with
  | none => exact List.Pairwise.nil
  | some template =>
      refine filterMap_three_keyDistinct _ _ _
        "change_in_cash" "fx_on_cash" "change_in_restricted_cash" ?_ ?_ ?_ (by decide)
      · intro d hd
        exact (cfD1_spec hd).2.1
      · intro d hd
        exact (cfD2_spec hd).2.1
      · intro d hd
        exact (cfD3_spec hd).2.1

/-- Claim C2 stage lemma: income-statement derivations keep keys distinct. -/
theorem add_income_statement_derivations_keyDistinct {rows : List AggRow}
    (h : KeyDistinct rows) : KeyDistinct (add_income_statement_derivations rows) := by
  unfold add_income_statement_derivations
  dsimp only
  split
  · exact h
  · apply append_sort_keyDistinct h
    · refine flatMap_keyDistinct _ _ (List.nodup_dedup _) ?_ ?_
      · intro p d hd
        rcases isDerivationsForPeriod_spec hd with ⟨_, ⟨r, hr, hpe⟩, _⟩
        rcases List.mem_filter.mp hr with ⟨_, hrp⟩
        rw [hpe]
        simpa using hrp
      · intro p
        exact isDerivationsForPeriod_pairwise _
    · intro a ha b hb
      rcases List.mem_flatMap.mp hb with ⟨p, hpmem, hbp⟩
      rcases isDerivationsForPeriod_spec hbp with ⟨hst, ⟨r, hr, hpe⟩, hno⟩
      rcases List.mem_filter.mp hr with ⟨_, hrp⟩
      intro hk
      have hstmt : a.statement = b.statement := congrArg AggKey.statement hk
      have hpea : a.period_end = b.period_end := congrArg AggKey.period_end hk
      have hlia : a.line_item = b.line_item := congrArg AggKey.line_item hk
      have hbpe : b.period_end = p := by
        rw [hpe]
        simpa using hrp
      have hamem : a ∈ rows.filter (fun r => r.period_end == p) :=
        List.mem_filter.mpr ⟨ha, by simp [hpea, hbpe]⟩
      exact hno a hamem (by rw [hstmt]; exact hst) hlia

/-- Claim C2 stage lemma: cash-flow residuals keep keys distinct. -/
theorem add_cash_flow_residuals_keyDistinct {rows : List AggRow}
    (h : KeyDistinct rows) : KeyDistinct (add_cash_flow_residuals rows) := by
  unfold add_cash_flow_residuals
  dsimp only
  split
  · exact h
  · apply append_sort_keyDistinct h
    · refine flatMap_keyDistinct _ _ (List.nodup_dedup _) ?_ ?_
      · intro p d hd
        rcases cfResidualsForPeriod_spec hd with ⟨_, ⟨r, hr, hpe⟩, _⟩
        rcases List.mem_filter.mp hr with ⟨_, hrp⟩
        rw [hpe]
        simpa using hrp
      · intro p
        exact cfResidualsForPeriod_pairwise _
    · intro a ha b hb
      rcases List.mem_flatMap.mp hb with ⟨p, hpmem, hbp⟩
      rcases cfResidualsForPeriod_spec hbp with ⟨hst, ⟨r, hr, hpe⟩, hno⟩
      rcases List.mem_filter.mp hr with ⟨hrcf, hrp⟩
      intro hk
      have hstmt : a.statement = b.statement := congrArg AggKey.statement hk
      have hpea : a.period_end = b.period_end := congrArg AggKey.period_end hk
      have hlia : a.line_item = b.line_item := congrArg AggKey.line_item hk
      have hbpe : b.period_end = p := by
        rw [hpe]
        simpa using hrp
      have hamem : a ∈ (rows.filter (fun r => r.statement == "cash_flow")).filter
          (fun r => r.period_end == p) := by
        refine List.mem_filter.mpr ⟨List.mem_filter.mpr ⟨ha, ?_⟩, ?_⟩
        · have hbst : b.statement = "cash_flow" := hst
          simp [hstmt, hbst]
        · simp [hpea, hbpe]
      exact hno a hamem hlia

/-- Claim C2 counterexample: the claimed key tuple omits `cik`, but the
aggregator groups by `(ticker, cik, ...)`.  Two raw facts identical in every
claimed-key component yet differing in `cik` produce two canonical rows with
the same (ticker, period_end, period_type, statement, line_item, unit) tuple,
so the claimed uniqueness fails as stated. -/
theorem c2_uniqueness_counterexample :
    ¬ List.Pairwise (fun a b => claimedKey a ≠ claimedKey b)
      (canonicalPipeline [c2RowCikOne, c2RowCikTwo] none) := by
  decide

/-- Claim C2 (amended): for every input list of raw fact rows, the canonical
fact set produced by aggregation including all derived/residual rows
(balance-sheet residuals, income-statement derivations, cash-flow residuals)
contains at most one row per (ticker, cik, period_end, period_type, statement,
line_item, unit) tuple — the grouping key including `cik`. -/
theorem c2_canonical_keys_unique (rows : List RawRow) (dpe : Option Int) :
    List.Pairwise (fun a b => aggRowKey a ≠ aggRowKey b)
      (canonicalPipeline rows dpe) := by
  unfold canonicalPipeline
  exact add_cash_flow_residuals_keyDistinct
    (add_income_statement_derivations_keyDistinct
      (add_balance_sheet_residuals_keyDistinct (aggregate_keyDistinct rows dpe)))

/-- Claim C3 (spec-modelled): after cash-flow period alignment, every
cfi/cff/change_in_cash row whose period_end has a cfo row carries exactly the
cfo row's `period_start`. -/
theorem c3_cash_flow_alignment (rows : List AggRow) (fact_rows : List RawRow)
    (r2 : AggRow) (hmem : r2 ∈ align_cash_flow_starts rows fact_rows)
    (hst : r2.statement = "cash_flow")
    (hli : r2.line_item = "cfi" ∨ r2.line_item = "cff" ∨ r2.line_item = "change_in_cash")
    (cfoRow : AggRow)
    (hcfo : rows.find? (fun r => r.statement == "cash_flow" && r.line_item == "cfo" &&
      r.period_end == r2.period_end) = some cfoRow) :
    r2.period_start = cfoRow.period_start := by
  rcases List.mem_map.mp hmem with ⟨row, hrow, hr2⟩
  by_cases hcond : (row.statement == "cash_flow" &&
      (row.line_item == "cfi" || row.line_item == "cff" ||
        row.line_item == "change_in_cash")) = true
  · cases hfind : rows.find? (fun r => r.statement == "cash_flow" && r.line_item == "cfo" &&
        r.period_end == row.period_end) with
    | none =>
        have he : r2 = row := by
          rw [← hr2]
          simp [align_cash_flow_starts, hcond, hfind]
        rw [he] at hcfo
        rw [hfind] at hcfo
        cases hcfo
    | some c =>
        by_cases hsame : (row.period_start == c.period_start) = true
        · have he : r2 = row := by
            rw [← hr2]
            simp only [align_cash_flow_starts, hcond, if_true, hfind, hsame]
          rw [he] at hcfo ⊢
          rw [hfind] at hcfo
          cases hcfo
          simpa using hsame
        · cases hfact : fact_rows.find? (fun f =>
              f.statement == some "cash_flow" && f.line_item == some row.line_item &&
              f.period_end == some row.period_end &&
              f.period_start == c.period_start && f.value.isSome) with
          | some f =>
              have he : r2 = { row with
                  period_start := c.period_start
                  value := f.value.getD row.value
                  source_fact_id := f.id } := by
                rw [← hr2]
                simp only [align_cash_flow_starts, hcond, if_true, hfind, hsame,
                  Bool.false_eq_true, if_false, hfact]
              have hpe : r2.period_end = row.period_end := by rw [he]
              rw [hpe] at hcfo
              rw [hfind] at hcfo
              cases hcfo
              rw [he]
          | none =>
              have he : r2 = { row with period_start := c.period_start } := by
                rw [← hr2]
                simp only [align_cash_flow_starts, hcond, if_true, hfind, hsame,
                  Bool.false_eq_true, if_false, hfact]
              have hpe : r2.period_end = row.period_end := by rw [he]
              rw [hpe] at hcfo
              rw [hfind] at hcfo
              cases hcfo
              rw [he]
  · have he : r2 = row := by
      rw [← hr2]
      simp [align_cash_flow_starts, hcond]
    exfalso
    apply hcond
    rw [he] at hst hli
    rcases hli with hli | hli | hli <;> simp [hst, hli]

/-- Witness for C3 at the concrete rows of `c3AggRows`/`c3FactRows`: the
aligned cfi row (realigned to the cfo start, day 91, with the matching raw
fact's value −40) carries the cfo row's period start. -/
theorem c3_cash_flow_alignment_witness :
    AggRow.period_start
        ⟨"D", some "1", some "0002", some 91, 181, "duration", "cash_flow", "cfi",
         -40, "USD", some 10⟩ =
      AggRow.period_start
        ⟨"D", some "1", some "0002", some 91, 181, "duration", "cash_flow", "cfo",
         100, "USD", some 1⟩ :=
  c3_cash_flow_alignment c3AggRows c3FactRows
    ⟨"D", some "1", some "0002", some 91, 181, "duration", "cash_flow", "cfi",
     -40, "USD", some 10⟩ (by decide) (by decide) (by decide)
    ⟨"D", some "1", some "0002", some 91, 181, "duration", "cash_flow", "cfo",
     100, "USD", some 1⟩ (by decide)

theorem tagAnchorCtx_some {tm : TagMap} {contexts : List (String × CtxData)}
    {t : IxTag} {stmt : String} {c : String}
    (h : tagAnchorCtx tm contexts t stmt = some c) :
    t.contextref = some c ∧ pyTruthyStr t.contextref = true := by
  unfold tagAnchorCtx at h
  by_cases hn : pyTruthyStr t.name = true
  · rw [if_neg (by simp [hn])] at h
    cases hl : lookupTagMap tm (t.name.getD "") with
    | none => rw [hl] at h; cases h
    | some mappings =>
        rw [hl] at h
        dsimp only at h
        by_cases hskip : ctxRefSkip contexts t.contextref = true
        · rw [if_pos hskip] at h
          cases h
        · rw [if_neg hskip] at h
          by_cases hcond : (mappings.any (fun m =>
              m.2 == stmt && (ANCHOR_LINE_ITEMS m.2).contains m.1) &&
              pyTruthyStr t.contextref) = true
          · rw [if_pos hcond] at h
            refine ⟨h, ?_⟩
            cases hx : pyTruthyStr t.contextref
            · rw [hx] at hcond
              simp at hcond
            · rfl
          · rw [if_neg hcond] at h
            cases h
  · rw [if_pos (by simp [hn])] at h
    cases h

theorem anchorsOf_mem_truthy {tm : TagMap} {contexts : List (String × CtxData)}
    {tags : List IxTag} {stmt : String} {c : String}
    (h : c ∈ anchorsOf tm contexts tags stmt) : (c == "") = false := by
  rcases List.mem_filterMap.mp h with ⟨t, _, ht⟩
  rcases tagAnchorCtx_some ht with ⟨hc, htr⟩
  rw [hc] at htr
  simpa [pyTruthyStr] using htr

/-- Claim C4 (amended): in `parse_inline_xbrl`, for a statement that has at
least one anchor context, a fact for a NON-anchor line item is emitted if and
only if its tag carries a context reference that is one of that statement's
anchor contexts; in particular a fact whose tag has no context reference at
all is dropped (not kept, as the original claim stated).  Each per-tag
emission feeds `parse_inline_xbrl` via flat-mapping over the tag list. -/
theorem c4_anchor_context_guard (tm : TagMap) (contexts : List (String × CtxData))
    (fpe : Option Int) (fpt : Option String) (um : List (String × String))
    (pa : String → Option ℚ) (tags : List IxTag) (tag : IxTag)
    (mappings : List (String × String)) (li st : String)
    (htag : tag ∈ tags)
    (hname : pyTruthyStr tag.name = true)
    (hmap : lookupTagMap tm (tag.name.getD "") = some mappings)
    (hskip : ctxRefSkip contexts tag.contextref = false)
    (hmem : (li, st) ∈ mappings)
    (hanch : anchorsOf tm contexts tags st ≠ [])
    (hnon : (ANCHOR_LINE_ITEMS st).contains li = false) :
    ((∃ fact ∈ emitFacts tm contexts fpe fpt um pa tags tag,
        fact.line_item = li ∧ fact.statement = st) ↔
      (∃ c, tag.contextref = some c ∧ c ∈ anchorsOf tm contexts tags st)) ∧
    ∀ fact ∈ emitFacts tm contexts fpe fpt um pa tags tag,
      fact ∈ parse_inline_xbrl tm contexts fpe fpt um pa tags := by
  have hguard_pos : (!(anchorsOf tm contexts tags st).isEmpty &&
      !((ANCHOR_LINE_ITEMS st).contains li)) = true := by
    simp only [Bool.and_eq_true, Bool.not_eq_true']
    constructor
    · rcases List.exists_mem_of_ne_nil _ hanch with ⟨x, hx⟩
      rw [List.isEmpty_eq_false_iff_exists_mem]
      exact ⟨x, hx⟩
    · exact hnon
  constructor
  · unfold emitFacts
    rw [if_neg (by simp [hname])]
    dsimp only
    rw [hmap]
    dsimp only
    rw [if_neg (by simp [hskip])]
    constructor
    · rintro ⟨fact, hfact, hfli, hfst⟩
      rcases List.mem_filterMap.mp hfact with ⟨m, hm, hfm⟩
      by_cases hguard : (!(anchorsOf tm contexts tags m.2).isEmpty &&
          !((ANCHOR_LINE_ITEMS m.2).contains m.1)) = true
      · rw [if_pos hguard] at hfm
        by_cases hdrop : (!(pyTruthyStr tag.contextref) ||
            !((anchorsOf tm contexts tags m.2).contains (tag.contextref.getD ""))) = true
        · rw [if_pos hdrop] at hfm
          cases hfm
        · rw [if_neg hdrop] at hfm
          cases hfm
          dsimp only at hfli hfst
          simp only [Bool.or_eq_true, Bool.not_eq_true'] at hdrop
          push_neg at hdrop
          rcases hdrop with ⟨htr, hcont⟩
          have htr2 : pyTruthyStr tag.contextref = true := by
            cases hx : pyTruthyStr tag.contextref
            · exact absurd hx htr
            · rfl
          cases hctx : tag.contextref with
          | none => rw [hctx] at htr2; cases htr2
          | some c =>
              refine ⟨c, rfl, ?_⟩
              have hcont2 : ((anchorsOf tm contexts tags m.2).contains
                  (tag.contextref.getD "")) = true := by
                cases hy : (anchorsOf tm contexts tags m.2).contains (tag.contextref.getD "")
                · exact absurd hy hcont
                · rfl
              rw [hctx] at hcont2
              simp only [Option.getD_some] at hcont2
              have hmem2 : c ∈ anchorsOf tm contexts tags m.2 :=
                List.mem_of_elem_eq_true hcont2
              rw [hfst] at hmem2
              exact hmem2
      · rw [if_neg hguard] at hfm
        cases hfm
        dsimp only at hfli hfst
        have hg2 := hguard_pos
        rw [← hfli, ← hfst] at hg2
        exact absurd hg2 hguard
    · rintro ⟨c, hctx, hcmem⟩
      have htrth : pyTruthyStr tag.contextref = true := by
        rw [hctx]
        have := anchorsOf_mem_truthy hcmem
        simpa [pyTruthyStr] using this
      have hcont : (anchorsOf tm contexts tags st).contains (tag.contextref.getD "") = true := by
        rw [hctx]
        simp only [Option.getD_some]
        exact List.elem_eq_true_of_mem hcmem
      refine ⟨⟨li, st,
          applyIxSign (applyDecimals (applyScale (pa tag.text) tag.scale) tag.decimals)
            tag.sign,
          (match List.find? (fun p =>
              p.1 == ((pyOrStr tag.unitref (pyOrStr tag.unitAttr (some "USD"))).getD "USD")) um with
            | some p => p.2
            | none => parserNormalizeUnit
                (some ((pyOrStr tag.unitref (pyOrStr tag.unitAttr (some "USD"))).getD "USD"))),
          tag.name.getD "", tag.contextref,
          (ctxLookup contexts tag.contextref).bind (fun cd => cd.start),
          pyOrDate ((ctxLookup contexts tag.contextref).bind (fun cd => cd.period_end)) fpe,
          (pyOrStr ((ctxLookup contexts tag.contextref).bind (fun cd => cd.period_type))
            (pyOrStr fpt (some "unknown"))).getD "unknown"⟩,
        List.mem_filterMap.mpr ⟨(li, st), hmem, ?_⟩, rfl, rfl⟩
      dsimp only
      rw [if_pos hguard_pos, if_neg (by rw [htrth, hcont]; simp)]
  · intro fact hfact
    unfold parse_inline_xbrl
    exact List.mem_flatMap.mpr ⟨tag, htag, hfact⟩

/-- Claim C4 counterexample: in `c4Tags`, the anchor tag `t:Rev` makes `c1`
the income-statement anchor context, and the non-anchor `cogs` tag carries no
context reference at all — the claim says such a fact is kept, but
`parse_inline_xbrl` emits no `cogs` fact. -/
theorem c4_no_context_fact_dropped :
    anchorsOf c4TagMap c4Contexts c4Tags "income_statement" = ["c1"] ∧
    (c4Tags.any (fun t => t.name == some "t:Misc" && t.contextref == none)) = true ∧
    ((parse_inline_xbrl c4TagMap c4Contexts none none [] c4ParseAmount c4Tags).map
      (fun f => f.line_item)).contains "cogs" = false := by
  refine ⟨?_, ?_, ?_⟩ <;> decide

/-- Witness for C4 at a concrete input: applying the amended guard theorem to
the context-free `cogs` tag of `c4Tags` shows no cogs fact is emitted for it. -/
theorem c4_anchor_context_guard_witness :
    ¬ (∃ fact ∈ emitFacts c4TagMap c4Contexts none none [] c4ParseAmount c4Tags c4TagMisc,
        fact.line_item = "cogs" ∧ fact.statement = "income_statement") := by
  intro hex
  have hiff := (c4_anchor_context_guard c4TagMap c4Contexts none none [] c4ParseAmount
    c4Tags c4TagMisc [("cogs", "income_statement")] "cogs" "income_statement"
    (by decide) (by decide) (by decide) (by decide) (by decide) (by decide)
    (by decide)).1
  rcases hiff.mp hex with ⟨c, hc, _⟩
  have : c4TagMisc.contextref = none := rfl
  rw [this] at hc
  cases hc

theorem forecastStep_entry (s : String) (sd : ScenarioDrivers) (lp : Int)
    (idx : Nat) (rc rp rr : ℚ) :
    (forecastStep s sd lp idx rc rp rr).1.scenario = s ∧
    (forecastStep s sd lp idx rc rp rr).1.period_index = idx ∧
    (forecastStep s sd lp idx rc rp rr).1.revenue = some (rr * (1 + sd.growth.getD 0)) ∧
    (forecastStep s sd lp idx rc rp rr).2.2.2 = rr * (1 + sd.growth.getD 0) :=
  ⟨rfl, rfl, rfl, rfl⟩

theorem buildScenarioPeriods_mem (s : String) (sd : ScenarioDrivers) (lp : Int) :
    ∀ (rem idx : Nat) (rc rp rr : ℚ) (e : ForecastEntry),
      e ∈ buildScenarioPeriods s sd lp rem idx rc rp rr →
      e.scenario = s ∧ ∃ j, j < rem ∧ e.period_index = idx + j ∧
        e.revenue = some (rr * (1 + sd.growth.getD 0) ^ (j + 1)) := by
  intro rem
  induction rem with
  | zero =>
      intro idx rc rp rr e he
      simp [buildScenarioPeriods] at he
  | succ n ih =>
      intro idx rc rp rr e he
      rw [buildScenarioPeriods] at he
      rcases List.mem_cons.mp he with rfl | he
      · rcases forecastStep_entry s sd lp idx rc rp rr with ⟨h1, h2, h3, _⟩
        refine ⟨h1, 0, Nat.succ_pos n, by rw [h2]; omega, ?_⟩
        rw [h3, pow_one]
      · rcases ih (idx + 1) _ _ _ e he with ⟨h1, j, hj, hidx, hrev⟩
        refine ⟨h1, j + 1, by omega, by rw [hidx]; omega, ?_⟩
        rw [hrev, (forecastStep_entry s sd lp idx rc rp rr).2.2.2]
        congr 1
        ring

theorem scenarioAdjust_fst (c : ScenarioConfig) (p : String × DriverEntry) :
    (scenarioAdjust c p).1 = p.1 := by
  unfold scenarioAdjust
  cases p.2.value with
  | none => rfl
  | some val =>
      dsimp only
      split
      · rfl
      · split
        · rfl
        · rfl

theorem find?_apply_scenario (c : ScenarioConfig) (l : List (String × DriverEntry))
    (key : String) :
    (l.map (scenarioAdjust c)).find? (fun p => p.1 == key) =
      (l.find? (fun p => p.1 == key)).map (scenarioAdjust c) := by
  induction l with
  | nil => rfl
  | cons p ps ih =>
      rw [List.map_cons, List.find?_cons, List.find?_cons]
      by_cases hp : (p.1 == key) = true
      · rw [scenarioAdjust_fst, hp]
        rfl
      · have hp2 : (p.1 == key) = false := by simpa using hp
        rw [scenarioAdjust_fst, hp2]
        exact ih

/-- The effective revenue growth used for one scenario when the
`revenue_growth` driver is present with value `g`. -/
theorem scenario_growth_eval (drivers : List (String × DriverEntry)) (s : String)
    (g : ℚ) (dp : String × DriverEntry)
    (hfind : drivers.find? (fun p => p.1 == "revenue_growth") = some dp)
    (hval : dp.2.value = some g)
    (hmult : (scenarioConfig s).growth_mult ≠ 0) :
    (pyOrQ (getValue (apply_scenario drivers s) "revenue_growth")
      (getDriver drivers "revenue_growth" (some DEFAULT_REVENUE_GROWTH))).getD 0 =
    g * (scenarioConfig s).growth_mult := by
  have hfst : dp.1 = "revenue_growth" := by
    have := @List.find?_some (String × DriverEntry) (fun p => p.1 == "revenue_growth")
      dp drivers hfind
    simpa using this
  have hadj : getValue (apply_scenario drivers s) "revenue_growth" =
      some (g * (scenarioConfig s).growth_mult) := by
    unfold getValue apply_scenario
    rw [find?_apply_scenario, hfind]
    simp only [Option.map_some']
    unfold scenarioAdjust
    rw [hval]
    dsimp only
    rw [if_pos (by simp [hfst])]
  have hgd : getDriver drivers "revenue_growth" (some DEFAULT_REVENUE_GROWTH) = some g := by
    unfold getDriver
    rw [hfind]
    dsimp only
    rw [hval]
  rw [hadj, hgd]
  by_cases hz : (g * (scenarioConfig s).growth_mult) = 0
  · have hg0 : g = 0 := by
      rcases mul_eq_zero.mp hz with h | h
      · exact h
      · exact absurd h hmult
    simp [pyOrQ, pyTruthyQ, hz, hg0]
  · simp [pyOrQ, pyTruthyQ, hz]

theorem scenarioConfig_growth_mult_ne (s : String) :
    (scenarioConfig s).growth_mult ≠ 0 := by
  unfold scenarioConfig
  split
  · norm_num
  · split
    · norm_num
    · norm_num

/-- Shared closed form: when the anchor revenue is `r` and the
`revenue_growth` driver is present with value `g`, every forecast entry of
scenario `s` has revenue `r * (1 + g * growth_mult(s)) ^ period_index`. -/
theorem build_forecast_revenue_closed (lp : Int)
    (latest_values : List (String × Option ℚ)) (drivers : List (String × DriverEntry))
    (n : Nat) (inc : Bool) (r g : ℚ) (dp : String × DriverEntry)
    (hrev : getValue latest_values "revenue" = some r)
    (hfind : drivers.find? (fun p => p.1 == "revenue_growth") = some dp)
    (hval : dp.2.value = some g) :
    ∀ e ∈ build_forecast lp latest_values drivers n inc,
      1 ≤ e.period_index ∧
      e.revenue = some (r * (1 + g * (scenarioConfig e.scenario).growth_mult) ^
        e.period_index) := by
  intro e he
  unfold build_forecast at he
  rw [hrev] at he
  dsimp only at he
  rcases List.mem_flatMap.mp he with ⟨s, hs, hes⟩
  have hmult := scenarioConfig_growth_mult_ne s
  rcases buildScenarioPeriods_mem s _ lp n 1 _ _ r e hes with ⟨hsc, j, hj, hidx, hrevj⟩
  have hgrow := scenario_growth_eval drivers s g dp hfind hval hmult
  subst hsc
  constructor
  · omega
  · rw [hrevj]
    dsimp only at hgrow ⊢
    have hpi : e.period_index = j + 1 := by omega
    rw [hgrow, hpi]

/-- C5: forecast compounding. Whenever the anchor `revenue` is `r` and the
`revenue_growth` driver is present with value `g`, every base-scenario entry
of `build_forecast` carries revenue `r * (1 + g) ^ period_index`: growth
compounds off the projected prior period, not the anchor. -/
theorem c5_forecast_compounding (lp : Int)
    (latest_values : List (String × Option ℚ)) (drivers : List (String × DriverEntry))
    (n : Nat) (inc : Bool) (r g : ℚ) (dp : String × DriverEntry)
    (hrev : getValue latest_values "revenue" = some r)
    (hfind : drivers.find? (fun p => p.1 == "revenue_growth") = some dp)
    (hval : dp.2.value = some g) :
    ∀ e ∈ build_forecast lp latest_values drivers n inc,
      e.scenario = "base" → e.revenue = some (r * (1 + g) ^ e.period_index) := by
  intro e he hbase
  rcases build_forecast_revenue_closed lp latest_values drivers n inc r g dp
    hrev hfind hval e he with ⟨-, hrev2⟩
  have hc : (scenarioConfig "base").growth_mult = 1 := by decide
  rw [hrev2, hbase, hc, mul_one]

/-- Witness for C5 at the spec example: anchor revenue 100 and growth 0.25
give revenue 125 at period_index 1 and 156.25 at period_index 2. -/
theorem c5_forecast_compounding_witness :
    (c5Forecast.get ⟨0, by decide⟩).revenue = some 125 ∧
    (c5Forecast.get ⟨1, by decide⟩).revenue = some (625 / 4) := by
  have h := c5_forecast_compounding 0 c5LatestValues c5Drivers 2 false 100 (1 / 4)
    ⟨"revenue_growth", ⟨some (1 / 4), none⟩⟩ (by decide) (by decide) rfl
  constructor
  · have h1 := h (c5Forecast.get ⟨0, by decide⟩) (by decide) (by decide)
    have hi : (c5Forecast.get ⟨0, by decide⟩).period_index = 1 := by decide
    rw [h1, hi]
    norm_num
  · have h2 := h (c5Forecast.get ⟨1, by decide⟩) (by decide) (by decide)
    have hi : (c5Forecast.get ⟨1, by decide⟩).period_index = 2 := by decide
    rw [h2, hi]
    norm_num

/-- Counterexample to C6 as stated: with a revenue-growth driver of exactly
zero (a legitimate anchor input), the bull and base scenarios project the
same revenue at the same period_index, so the ordering is not strict for
every identical anchor input. -/
theorem c6_scenario_ordering_counterexample :
    ∃ eb ∈ build_forecast 0 c5LatestValues c6ZeroGrowthDrivers 1 true,
      ∃ e0 ∈ build_forecast 0 c5LatestValues c6ZeroGrowthDrivers 1 true,
        eb.scenario = "bull" ∧ e0.scenario = "base" ∧
        eb.period_index = e0.period_index ∧ eb.revenue = e0.revenue := by decide

/-- C6 (amended): when the anchor revenue is positive and the revenue-growth
driver is present with a positive value, the bull scenario projects strictly
more revenue than base, and base strictly more than bear, at every shared
period_index. -/
theorem c6_scenario_ordering (lp : Int)
    (latest_values : List (String × Option ℚ)) (drivers : List (String × DriverEntry))
    (n : Nat) (r g : ℚ) (dp : String × DriverEntry)
    (hrev : getValue latest_values "revenue" = some r)
    (hfind : drivers.find? (fun p => p.1 == "revenue_growth") = some dp)
    (hval : dp.2.value = some g) (hr : 0 < r) (hg : 0 < g) :
    ∀ ebull ∈ build_forecast lp latest_values drivers n true,
      ∀ ebase ∈ build_forecast lp latest_values drivers n true,
        ∀ ebear ∈ build_forecast lp latest_values drivers n true,
          ebull.scenario = "bull" → ebase.scenario = "base" → ebear.scenario = "bear" →
          ebull.period_index = ebase.period_index →
          ebear.period_index = ebase.period_index →
          ∃ vbull vbase vbear : ℚ,
            ebull.revenue = some vbull ∧ ebase.revenue = some vbase ∧
            ebear.revenue = some vbear ∧ vbear < vbase ∧ vbase < vbull := by
  intro ebull hmb ebase hm0 ebear hmr hsb hs0 hsr hib hir
  rcases build_forecast_revenue_closed lp latest_values drivers n true r g dp
    hrev hfind hval ebull hmb with ⟨-, hvb⟩
  rcases build_forecast_revenue_closed lp latest_values drivers n true r g dp
    hrev hfind hval ebase hm0 with ⟨hk0, hv0⟩
  rcases build_forecast_revenue_closed lp latest_values drivers n true r g dp
    hrev hfind hval ebear hmr with ⟨-, hvr⟩
  have hcb : (scenarioConfig "bull").growth_mult = 3 / 2 := by decide
  have hc0 : (scenarioConfig "base").growth_mult = 1 := by decide
  have hcr : (scenarioConfig "bear").growth_mult = 1 / 2 := by decide
  rw [hsb, hcb, hib] at hvb
  rw [hs0, hc0] at hv0
  rw [hsr, hcr, hir] at hvr
  refine ⟨_, _, _, hvb, hv0, hvr, ?_, ?_⟩
  · have hlt : (1 + g * (1 / 2)) ^ ebase.period_index <
        (1 + g * 1) ^ ebase.period_index :=
      pow_lt_pow_left₀ (by linarith) (by linarith) (by omega)
    exact mul_lt_mul_of_pos_left hlt hr
  · have hlt : (1 + g * 1) ^ ebase.period_index <
        (1 + g * (3 / 2)) ^ ebase.period_index :=
      pow_lt_pow_left₀ (by linarith) (by linarith) (by omega)
    exact mul_lt_mul_of_pos_left hlt hr

/-- Witness for the amended C6 at the concrete input: revenue 100 and growth
0.25 with scenarios enabled give strictly ordered bull/base/bear revenues in
the first forecast period. -/
theorem c6_scenario_ordering_witness :
    ∃ vbull vbase vbear : ℚ,
      (c6Forecast.get ⟨1, by decide⟩).revenue = some vbull ∧
      (c6Forecast.get ⟨0, by decide⟩).revenue = some vbase ∧
      (c6Forecast.get ⟨2, by decide⟩).revenue = some vbear ∧
      vbear < vbase ∧ vbase < vbull :=
  c6_scenario_ordering 0 c5LatestValues c5Drivers 1 100 (1 / 4)
    ⟨"revenue_growth", ⟨some (1 / 4), none⟩⟩ (by decide) (by decide) rfl
    (by norm_num) (by norm_num)
    (c6Forecast.get ⟨1, by decide⟩) (by decide)
    (c6Forecast.get ⟨0, by decide⟩) (by decide)
    (c6Forecast.get ⟨2, by decide⟩) (by decide)
    (by decide) (by decide) (by decide) (by decide) (by decide)

/-- Counterexample to C7 as stated: an observed ratio of 0.6 lies outside
[0, 0.5], so the driver value falls back to the default 0.21, but the
is_default flag is NOT set (the code computes it as `tax_rate is None` after
tax_rate has already been replaced by the default). -/
theorem c7_tax_rate_flag_counterexample :
    observedTaxRatio c7Metrics = some (3 / 5) ∧ ((1 : ℚ) / 2 < 3 / 5) ∧
    taxRateDriver c7Metrics = some ⟨some DEFAULT_TAX_RATE, some false⟩ := by decide

/-- C7 (amended): for nonempty metrics the tax_rate driver value equals the
observed ratio exactly when that ratio is defined, nonzero and inside
[0, 0.5]; it is the default 0.21 when the ratio is undefined, zero (Python
`or` treats 0.0 as falsy) or outside the range; and is_default is true
exactly when the ratio is undefined (not when it is merely out of range). -/
theorem c7_tax_rate_range_guard (metrics : List (Int × List (String × Option ℚ)))
    (h : metrics.isEmpty = false) :
    taxRateDriver metrics = some ⟨some (
      match observedTaxRatio metrics with
      | some t => if t < 0 ∨ 1 / 2 < t ∨ t = 0 then DEFAULT_TAX_RATE else t
      | none => DEFAULT_TAX_RATE),
      some (observedTaxRatio metrics).isNone⟩ := by
  unfold taxRateDriver
  rw [if_neg (by rw [h]; simp)]
  dsimp only
  cases hobs : observedTaxRatio metrics with
  | none => rfl
  | some t =>
      dsimp only
      by_cases hg : t < 0 ∨ 1 / 2 < t
      · rw [if_pos hg, if_pos (hg.imp id Or.inl)]
        have hd : pyOrQD (some DEFAULT_TAX_RATE) DEFAULT_TAX_RATE = DEFAULT_TAX_RATE := by
          decide
        rw [hd]
        rfl
      · rw [if_neg hg]
        by_cases ht : t = 0
        · rw [if_pos (Or.inr (Or.inr ht)), ht]
          have hd : pyOrQD (some 0) DEFAULT_TAX_RATE = DEFAULT_TAX_RATE := by decide
          rw [hd]
        · rw [if_neg (fun hc => hc.elim (fun h1 => hg (Or.inl h1))
            (fun hc2 => hc2.elim (fun h2 => hg (Or.inr h2)) ht))]
          have hd : pyOrQD (some t) DEFAULT_TAX_RATE = t := by
            simp [pyOrQD, ht]
          rw [hd]

/-- Witness for the amended C7: an observed ratio of 4/19 is defined, nonzero
and inside [0, 0.5], so the driver carries it verbatim with is_default
false. -/
theorem c7_tax_rate_range_guard_witness :
    taxRateDriver c7WitnessMetrics = some ⟨some (4 / 19), some false⟩ := by
  have h := c7_tax_rate_range_guard c7WitnessMetrics (by decide)
  rw [h]
  decide

theorem tieStatus_spec (o : Option ℚ) :
    (tieStatus o = "ok" ∨ tieStatus o = "fail") ∧
    (tieStatus o = "fail" ↔ ∃ b, o = some b ∧ (1 : ℚ) / 100 < |b|) := by
  cases o with
  | none =>
      refine ⟨Or.inl rfl, fun hc => absurd hc (by decide), fun hcon => ?_⟩
      rcases hcon with ⟨b, hb, -⟩
      cases hb
  | some b =>
      unfold tieStatus
      dsimp only
      by_cases htol : (1 : ℚ) / 100 < |b|
      · rw [if_pos htol]
        exact ⟨Or.inr rfl, fun _ => ⟨b, rfl, htol⟩, fun _ => rfl⟩
      · rw [if_neg htol]
        refine ⟨Or.inl rfl, fun hc => absurd hc (by decide), fun hcon => ?_⟩
        rcases hcon with ⟨b2, hb2, h2⟩
        injection hb2 with h3
        subst h3
        exact absurd h2 htol

theorem compute_tie_checks_status_bs {metrics : List (Int × List (String × TieCell))}
    {pr : Int × TieResult} (hmem : pr ∈ compute_tie_checks metrics) :
    pr.2.status = tieStatus pr.2.bs_tie := by
  unfold compute_tie_checks at hmem
  rcases List.mem_filterMap.mp hmem with ⟨idx, -, heq⟩
  dsimp only at heq
  cases hget : (sortedDesc (metrics.map (fun p => p.1))).get? idx with
  | none => rw [hget] at heq; cases heq
  | some period =>
      rw [hget] at heq
      dsimp only at heq
      injection heq with h1
      subst h1
      rfl

/-- Counterexample to C8 as stated: a period whose cash-flow tie delta is 10
(far beyond the 0.01 tolerance) while no balance-sheet data exists still gets
status "ok", because the code drives status from the balance-sheet tie
alone; and no period ever gets status "warn". -/
theorem c8_tie_status_counterexample :
    ∃ pr ∈ compute_tie_checks c8Metrics,
      (∃ c, pr.2.cf_tie = some c ∧ (1 : ℚ) / 100 < |c|) ∧
      pr.2.status = "ok" := by decide

/-- C8 (amended): every period's status is "ok" or "fail" (never "warn"),
and it is "fail" exactly when the balance-sheet tie delta is defined and
exceeds the 0.01 tolerance in absolute value; the cash-flow tie delta never
influences the status. -/
theorem c8_tie_check_status (metrics : List (Int × List (String × TieCell))) :
    ∀ pr ∈ compute_tie_checks metrics,
      (pr.2.status = "ok" ∨ pr.2.status = "fail") ∧
      (pr.2.status = "fail" ↔ ∃ b, pr.2.bs_tie = some b ∧ (1 : ℚ) / 100 < |b|) := by
  intro pr hmem
  rw [compute_tie_checks_status_bs hmem]
  exact tieStatus_spec pr.2.bs_tie

/-- Witness for the amended C8 at the spec example: assets 100, liabilities
60, equity 30 give a balance-sheet tie delta of 10 and status "fail". -/
theorem c8_tie_check_status_witness :
    ((compute_tie_checks c8WitnessMetrics).get ⟨0, by decide⟩).2.bs_tie = some 10 ∧
    ((compute_tie_checks c8WitnessMetrics).get ⟨0, by decide⟩).2.status = "fail" := by
  have h := c8_tie_check_status c8WitnessMetrics
    ((compute_tie_checks c8WitnessMetrics).get ⟨0, by decide⟩) (by decide)
  exact ⟨by decide, h.2.mpr ⟨10, by decide, by norm_num⟩⟩

/-- Counterexample to C9 as stated: a supplied but empty interval_low list is
falsy in Python, so its length is never checked: with one actual and one
forecast and interval_low = [], the lengths differ (0 vs 1) yet the function
returns the metrics dict without raising. -/
theorem c9_backtest_length_guard_counterexample :
    ([] : List (Option ℚ)).length ≠ [some (1 : ℚ)].length ∧
    compute_backtest_metrics [some 1] [some 1] (some []) none =
      Except.ok ⟨some 0, some 0, some 1, none⟩ :=
  ⟨by decide, by rfl⟩

/-- C9 (amended): compute_backtest_metrics raises a length-mismatch error if
and only if actuals and forecasts differ in length, or a TRUTHY (supplied and
non-empty) interval_low or interval_high list differs in length from actuals;
a supplied empty interval list is falsy and escapes the check. -/
theorem c9_backtest_length_guard (actuals forecasts : List (Option ℚ))
    (interval_low interval_high : Option (List (Option ℚ))) :
    (∃ msg, compute_backtest_metrics actuals forecasts interval_low interval_high =
        Except.error msg) ↔
      actuals.length ≠ forecasts.length ∨
        (pyTruthyList interval_low = true ∧
          (interval_low.getD []).length ≠ actuals.length) ∨
        (pyTruthyList interval_high = true ∧
          (interval_high.getD []).length ≠ actuals.length) := by
  unfold compute_backtest_metrics
  by_cases h1 : actuals.length ≠ forecasts.length
  · simp only [if_pos h1]
    exact ⟨fun _ => Or.inl h1, fun _ => ⟨_, rfl⟩⟩
  · simp only [if_neg h1]
    by_cases h2 : (pyTruthyList interval_low &&
        !((interval_low.getD []).length == actuals.length)) = true
    · simp only [if_pos h2]
      rw [Bool.and_eq_true] at h2
      rcases h2 with ⟨h2a, h2b⟩
      have h2c : (interval_low.getD []).length ≠ actuals.length := by
        intro hc
        rw [hc] at h2b
        simp at h2b
      exact ⟨fun _ => Or.inr (Or.inl ⟨h2a, h2c⟩), fun _ => ⟨_, rfl⟩⟩
    · simp only [if_neg h2]
      by_cases h3 : (pyTruthyList interval_high &&
          !((interval_high.getD []).length == actuals.length)) = true
      · simp only [if_pos h3]
        rw [Bool.and_eq_true] at h3
        rcases h3 with ⟨h3a, h3b⟩
        have h3c : (interval_high.getD []).length ≠ actuals.length := by
          intro hc
          rw [hc] at h3b
          simp at h3b
        exact ⟨fun _ => Or.inr (Or.inr ⟨h3a, h3c⟩), fun _ => ⟨_, rfl⟩⟩
      · simp only [if_neg h3]
        constructor
        · intro hcon
          rcases hcon with ⟨msg, hmsg⟩
          split at hmsg
          · exact Except.noConfusion hmsg
          · exact Except.noConfusion hmsg
        · intro hcon
          exfalso
          rcases hcon with hA | ⟨hBa, hBb⟩ | ⟨hCa, hCb⟩
          · exact h1 hA
          · exact h2 (by rw [Bool.and_eq_true]; exact ⟨hBa, by simp [hBb]⟩)
          · exact h3 (by rw [Bool.and_eq_true]; exact ⟨hCa, by simp [hCb]⟩)
